import Mathlib

/-!
# Charter flight quote calculator

A shallow embedding of `supabase/functions/charter-quote/index.ts`, the edge function that
prices a charter flight, together with the properties of it that the specification states.

Conventions of the embedding.

* JavaScript numbers are taken in exact arithmetic in the pipeline as a whole.  Everything
  that follows the distance computation is written over an arbitrary linearly ordered field
  `α` with a floor function, so that it can be evaluated over `ℚ` and used over `ℝ`; the
  haversine distance itself needs `sin`, `cos`, `sqrt` and `atan2` and lives over `ℝ`.
* The floor and the ceiling of the flight time are sensitive to the rounding of doubles, so
  the flight time, its displayed hours and minutes and the flight cost (lines 134 to 143 of
  the handler) are given a second time with every operation rounded to the nearest double
  (`roundDouble`); the properties of the billed and of the displayed time are stated on
  these.
* The one place where a value that is not a number reaches the arithmetic is the lookup
  `SUBSCRIPTION_DISCOUNTS[tier]`; such a value turns into `NaN`, which is `none` in `JsNumber`.
* The tables of the data store are lists of rows, and the query builder calls are the
  corresponding list operations (`.eq`, `.gte`, `.gt`, `.in` filter, `.order` sorts,
  `.single()` demands exactly one row, `.update` rewrites the matching rows).
* Not modelled: the CORS and method checks that precede the parsing of the body, the random
  identifiers and the timestamps of the quote, and the insertion of the quote into
  `charter.quotes`, which never changes the response.
-/

namespace CharterQuote

/-! ## JavaScript values -/

/-- A JavaScript number in exact arithmetic: `some x` is the number `x`, `none` is `NaN`. -/
abbrev JsNumber (α : Type) := Option α

/-- The values a property lookup on an object literal of numbers can give. -/
inductive JsValue (α : Type) where
  /-- A number. -/
  | number (x : α)
  /-- The value `undefined` of a property that is not found. -/
  | undefined
  /-- An object or a function, such as the members inherited from `Object.prototype`. -/
  | object
  deriving DecidableEq, Repr

/-- Truthiness of a value: a number is truthy unless it is zero, `undefined` is falsy, an
object or a function is truthy. -/
def JsValue.truthy {α : Type} [DecidableEq α] [Zero α] : JsValue α → Bool
  | .number x => decide (x ≠ 0)
  | .undefined => false
  | .object => true

/-- The operator `v || d`. -/
def JsValue.or {α : Type} [DecidableEq α] [Zero α] (v d : JsValue α) : JsValue α :=
  if v.truthy then v else d

/-- The conversion `ToNumber` applied by the arithmetic operators: `undefined`, functions and
plain objects all become `NaN`. -/
def JsValue.toNumber {α : Type} : JsValue α → JsNumber α
  | .number x => some x
  | .undefined => none
  | .object => none

/-- Truthiness of a number field of the request: `0` (like a missing field) is falsy. -/
def truthyNum (n : Nat) : Bool := n != 0

/-- Truthiness of a string field of the request: `""` (like a missing field) is falsy. -/
def truthyStr (s : String) : Bool := s != ""

/-- Truthiness of an optional number field. -/
def truthyOptNum : Option Nat → Bool
  | some n => truthyNum n
  | none => false

/-- Truthiness of an optional string field. -/
def truthyOptStr : Option String → Bool
  | some s => truthyStr s
  | none => false

/-! ## Data model -/

/-- The request payload `QuoteRequest`. -/
structure QuoteRequest where
  origin_id : Nat
  destination_id : Nat
  departure_date : String
  return_date : Option String
  passengers : Nat
  aircraft_type_id : Option Nat
  extras : Option (List Nat)
  promo_code : Option String
  subscription_tier : String
  deriving DecidableEq, Repr

/-- A row of `charter.airports`. -/
structure Airport (α : Type) where
  id : Nat
  iata_code : String
  latitude : α
  longitude : α
  deriving DecidableEq, Repr

/-- A row of `charter.aircraft_types`. -/
structure AircraftType (α : Type) where
  id : Nat
  name : String
  category : String
  max_passengers : Nat
  range_km : α
  cruise_speed_kmh : α
  hourly_rate : α
  deriving DecidableEq, Repr

/-- A row of `charter.extras`. -/
structure Extra (α : Type) where
  id : Nat
  name : String
  price : α
  deriving DecidableEq, Repr

/-- A row of `charter.promo_codes`; `valid_until` and the current time are instants on one
time line, `max_uses` is the number of uses that remain. -/
structure PromoCode (α : Type) where
  id : Nat
  code : String
  discount_type : String
  discount_value : α
  is_active : Bool
  valid_until : Nat
  max_uses : Int
  deriving DecidableEq, Repr

/-- The tables the handler reads, and the one (`promo_codes`) it writes. -/
structure Database (α : Type) where
  airports : List (Airport α)
  aircraft_types : List (AircraftType α)
  extras : List (Extra α)
  promo_codes : List (PromoCode α)
  deriving DecidableEq, Repr

/-- The `estimated_flight_time` block of a quote. -/
structure FlightTime where
  hours : Int
  minutes : Int
  deriving DecidableEq, Repr

/-- The `flight_details` block of a quote. -/
structure FlightDetails where
  origin_id : Nat
  origin : String
  destination_id : Nat
  destination : String
  distance_km : Int
  estimated_flight_time : FlightTime
  departure_date : String
  return_date : Option String
  is_round_trip : Bool
  passengers : Nat
  deriving DecidableEq, Repr

/-- The `subscription_discount` block of the pricing. -/
structure SubscriptionDiscount (α : Type) where
  percentage : JsValue α
  amount : JsNumber α
  deriving DecidableEq, Repr

/-- The `pricing` block of a quote. -/
structure Pricing (α : Type) where
  flight_cost : α
  extras_cost : α
  subscription_discount : SubscriptionDiscount α
  promo_discount : α
  subtotal : JsNumber α
  taxes : JsNumber α
  total : JsNumber α
  deriving DecidableEq, Repr

/-- The quote object, without its random identifiers and timestamps. -/
structure Quote (α : Type) where
  flight_details : FlightDetails
  aircraft : AircraftType α
  selected_extras : List (Extra α)
  pricing : Pricing α
  deriving DecidableEq, Repr

/-- What the handler answers: the quote with status 200, or a status and an error text. -/
inductive Response (α : Type) where
  | ok (quote : Quote α)
  | error (status : Nat) (error : String)
  deriving DecidableEq, Repr

/-- The `data` of a query: the rows of a list query, the row of a `.single()` query, or `null`
when `.single()` does not find exactly one row. -/
inductive QueryData (β : Type) where
  | rows (l : List β)
  | row (r : β)
  | null
  deriving DecidableEq, Repr

/-- The query modifier `.single()`: the row when the result has exactly one, otherwise nothing. -/
def single {β : Type} : List β → Option β
  | [r] => some r
  | _ => none

/-! ## Constants -/

/-- Earth radius in kilometers. -/
def EARTH_RADIUS_KM : Nat := 6371

/-- The names every object literal inherits from `Object.prototype`: a lookup of one of them
on an object literal that does not define it finds the inherited function.  (The accessor
`__proto__` is not in the list: the Deno runtime removes it.) -/
def objectPrototypeKeys : List String :=
  ["constructor", "hasOwnProperty", "isPrototypeOf", "propertyIsEnumerable", "toLocaleString",
   "toString", "valueOf", "__defineGetter__", "__defineSetter__", "__lookupGetter__",
   "__lookupSetter__"]

/-- The property lookup `SUBSCRIPTION_DISCOUNTS[key]` on the object literal
`{ "free": 0, "premium": 5, "business": 10, "elite": 15 }`. -/
def SUBSCRIPTION_DISCOUNTS {α : Type} [NatCast α] (key : String) : JsValue α :=
  if key = "free" then .number ((0 : Nat) : α)
  else if key = "premium" then .number ((5 : Nat) : α)
  else if key = "business" then .number ((10 : Nat) : α)
  else if key = "elite" then .number ((15 : Nat) : α)
  else if key ∈ objectPrototypeKeys then .object
  else .undefined

/-! ## Arithmetic on JavaScript numbers -/

section Numbers

variable {α : Type}

/-- The sum `x + y`, which is `NaN` as soon as one side is. -/
def JsNumber.add [Add α] (x y : JsNumber α) : JsNumber α :=
  x.bind fun a => y.map fun b => a + b

/-- The difference `x - y`, which is `NaN` as soon as one side is. -/
def JsNumber.sub [Sub α] (x y : JsNumber α) : JsNumber α :=
  x.bind fun a => y.map fun b => a - b

/-- The product `x * y`, which is `NaN` as soon as one side is. -/
def JsNumber.mul [Mul α] (x y : JsNumber α) : JsNumber α :=
  x.bind fun a => y.map fun b => a * b

/-- The quotient `x / y`, which is `NaN` as soon as one side is. -/
def JsNumber.div [Div α] (x y : JsNumber α) : JsNumber α :=
  x.bind fun a => y.map fun b => a / b

end Numbers

/-! ## The steps of the handler that follow the distance computation -/

section Pipeline

variable {α : Type} [LinearOrderedField α] [FloorRing α]

/-- The required-field validation: the request is refused when this is `true`. -/
def missingRequiredFields (quoteRequest : QuoteRequest) : Bool :=
  !truthyNum quoteRequest.origin_id || !truthyNum quoteRequest.destination_id ||
    !truthyStr quoteRequest.departure_date || !truthyNum quoteRequest.passengers

/-- The first `aircraftQuery`: the aircraft types with `range_km >= distance` and
`max_passengers >= passengers`, in ascending order of `hourly_rate`. -/
def aircraftQuery (aircraft_types : List (AircraftType α)) (distance : α) (passengers : Nat) :
    List (AircraftType α) :=
  (((aircraft_types.filter fun t => decide (distance ≤ t.range_km)).filter
    fun t => decide (passengers ≤ t.max_passengers)).insertionSort
    fun t u => t.hourly_rate ≤ u.hourly_rate)

/-- The `data` of the awaited aircraft query: when `aircraft_type_id` is truthy the query is
replaced by the lookup of that id with `.single()`, otherwise it is `aircraftQuery`. -/
def aircraft (aircraft_types : List (AircraftType α)) (distance : α)
    (quoteRequest : QuoteRequest) : QueryData (AircraftType α) :=
  if truthyOptNum quoteRequest.aircraft_type_id then
    match single (aircraft_types.filter fun t => some t.id == quoteRequest.aircraft_type_id) with
    | some t => .row t
    | none => .null
  else
    .rows (aircraftQuery aircraft_types distance quoteRequest.passengers)

/-- The availability check `!aircraft || (Array.isArray(aircraft) && aircraft.length === 0)`. -/
def aircraftUnavailable {β : Type} : QueryData β → Bool
  | .null => true
  | .rows l => l.length == 0
  | .row _ => false

/-- The choice `Array.isArray(aircraft) ? aircraft[0] : aircraft`. -/
def selectedAircraft {β : Type} : QueryData β → Option β
  | .rows l => l.head?
  | .row t => some t
  | .null => none

/-- The flight time in hours, `distance / cruise_speed_kmh`, the quotient taken exactly
(`flightTimeHoursDouble` is the quotient as a double). -/
def flightTimeHours (distance : α) (selected : AircraftType α) : α :=
  distance / selected.cruise_speed_kmh

/-- The displayed hours, `Math.floor(flightTimeHours)`. -/
def hours (flightTime : α) : Int := ⌊flightTime⌋

/-- The displayed minutes, `Math.floor((flightTimeHours - hours) * 60)`, the product taken
exactly (`minutesDouble` is the floor of the product as a double). -/
def minutes (flightTime : α) : Int := ⌊(flightTime - (hours flightTime : α)) * 60⌋

/-- The base flight cost, `hourly_rate * (Math.ceil(flightTimeHours * 2) / 2)`, the products
taken exactly (`flightCostDouble` is the cost in doubles). -/
def flightCost (distance : α) (selected : AircraftType α) : α :=
  selected.hourly_rate * ((⌈flightTimeHours distance selected * 2⌉ : α) / 2)

/-- The round trip flag, `!!return_date`. -/
def isRoundTrip (quoteRequest : QuoteRequest) : Bool := truthyOptStr quoteRequest.return_date

/-- The flight cost of the whole trip, `isRoundTrip ? flightCost * 2 : flightCost`. -/
def totalFlightCost (distance : α) (selected : AircraftType α) (quoteRequest : QuoteRequest) : α :=
  if isRoundTrip quoteRequest then flightCost distance selected * 2 else flightCost distance selected

/-- The extras that are priced: when the request lists at least one id, the rows of
`charter.extras` whose id is in the list; otherwise none. -/
def selectedExtras (extras : List (Extra α)) (quoteRequest : QuoteRequest) : List (Extra α) :=
  match quoteRequest.extras with
  | some ids => if 0 < ids.length then extras.filter fun e => decide (e.id ∈ ids) else []
  | none => []

/-- The extras cost, `extras.reduce((sum, extra) => sum + extra.price, 0)`. -/
def extrasCost (extras : List (Extra α)) (quoteRequest : QuoteRequest) : α :=
  (selectedExtras extras quoteRequest).foldl (fun sum extra => sum + extra.price) 0

/-- The subscription percentage, `SUBSCRIPTION_DISCOUNTS[subscription_tier] || 0`. -/
def subscriptionDiscountPercentage (quoteRequest : QuoteRequest) : JsValue α :=
  (SUBSCRIPTION_DISCOUNTS quoteRequest.subscription_tier).or (.number 0)

/-- The subscription discount,
`(totalFlightCost + extrasCost) * (subscriptionDiscountPercentage / 100)`. -/
def subscriptionDiscountAmount (totalFlight extras : α) (percentage : JsValue α) : JsNumber α :=
  JsNumber.mul (some (totalFlight + extras)) (JsNumber.div percentage.toNumber (some 100))

/-- The promo code lookup: the rows with the given code that are active, valid until now or
later and have uses left, reduced by `.single()`. -/
def promoCodeQuery (promo_codes : List (PromoCode α)) (now : Nat) (code : String) :
    Option (PromoCode α) :=
  single (promo_codes.filter fun p =>
    p.code == code && p.is_active == true && decide (now ≤ p.valid_until) && decide (0 < p.max_uses))

/-- The promo code record the handler works with: the lookup is made only when the request
carries a truthy `promo_code`. -/
def promoCode (promo_codes : List (PromoCode α)) (now : Nat) (quoteRequest : QuoteRequest) :
    Option (PromoCode α) :=
  match quoteRequest.promo_code with
  | some code => if truthyStr code then promoCodeQuery promo_codes now code else none
  | none => none

/-- The promo discount: a share of `totalFlightCost + extrasCost` for the type `"percentage"`,
the `discount_value` itself for every other type, and `0` without a promo code record. -/
def promoDiscount (promo : Option (PromoCode α)) (totalFlight extras : α) : α :=
  match promo with
  | some p =>
    if p.discount_type = "percentage" then (totalFlight + extras) * (p.discount_value / 100)
    else p.discount_value
  | none => 0

/-- The usage update: every row whose id is that of the record found gets `max_uses` set to
the value that was read minus one; without a record nothing is written. -/
def promoCodesUpdate (promo_codes : List (PromoCode α)) (promo : Option (PromoCode α)) :
    List (PromoCode α) :=
  match promo with
  | some p => promo_codes.map fun r => if r.id = p.id then { r with max_uses := p.max_uses - 1 } else r
  | none => promo_codes

/-- The subtotal, `totalFlightCost + extrasCost - subscriptionDiscountAmount - promoDiscount`. -/
def subtotal (totalFlight extras : α) (subscriptionAmount : JsNumber α) (promo : α) : JsNumber α :=
  JsNumber.sub (JsNumber.sub (some (totalFlight + extras)) subscriptionAmount) (some promo)

/-- The tax rate `0.075`. -/
def taxRate : α := 75 / 1000

/-- The taxes, `subtotal * taxRate`. -/
def taxes (sub : JsNumber α) : JsNumber α := JsNumber.mul sub (some taxRate)

/-- The total, `subtotal + taxes`. -/
def total (sub : JsNumber α) : JsNumber α := JsNumber.add sub (taxes sub)

/-- The pricing block of the quote. -/
def pricing (totalFlight extras : α) (percentage : JsValue α) (promo : α) : Pricing α :=
  let amount := subscriptionDiscountAmount totalFlight extras percentage
  let sub := subtotal totalFlight extras amount promo
  { flight_cost := totalFlight
    extras_cost := extras
    subscription_discount := { percentage := percentage, amount := amount }
    promo_discount := promo
    subtotal := sub
    taxes := taxes sub
    total := total sub }

/-- The handler from the aircraft query on, for two airports that were found and the distance
between them: the response, and the promo code table as the handler leaves it. -/
def computeQuote (db : Database α) (now : Nat) (quoteRequest : QuoteRequest)
    (originAirport destinationAirport : Airport α) (distance : α) :
    Response α × List (PromoCode α) :=
  let found := aircraft db.aircraft_types distance quoteRequest
  if aircraftUnavailable found then
    (.error 404 "No suitable aircraft found for this journey", db.promo_codes)
  else
    match selectedAircraft found with
    | none => (.error 500 "Internal server error", db.promo_codes)
    | some selected =>
      let flightTime := flightTimeHours distance selected
      let totalFlight := totalFlightCost distance selected quoteRequest
      let extras := extrasCost db.extras quoteRequest
      let promo := promoCode db.promo_codes now quoteRequest
      (.ok
        { flight_details :=
            { origin_id := originAirport.id
              origin := originAirport.iata_code
              destination_id := destinationAirport.id
              destination := destinationAirport.iata_code
              distance_km := ⌊distance + 1 / 2⌋
              estimated_flight_time := { hours := hours flightTime, minutes := minutes flightTime }
              departure_date := quoteRequest.departure_date
              return_date := if isRoundTrip quoteRequest then quoteRequest.return_date else none
              is_round_trip := isRoundTrip quoteRequest
              passengers := quoteRequest.passengers }
          aircraft := selected
          selected_extras := selectedExtras db.extras quoteRequest
          pricing := pricing totalFlight extras (subscriptionDiscountPercentage quoteRequest)
            (promoDiscount promo totalFlight extras) },
        promoCodesUpdate db.promo_codes promo)

end Pipeline

/-! ## The haversine distance and the handler -/

section Handler

open Real

/-- The function `Math.atan2(y, x)`: the angle in `(-π, π]` of the point `(x, y)`. -/
noncomputable def atan2 (y x : ℝ) : ℝ := Complex.arg ⟨x, y⟩

/-- The haversine intermediate `a` of two airports. -/
noncomputable def haversineA (originAirport destinationAirport : Airport ℝ) : ℝ :=
  let lat1 := originAirport.latitude * π / 180
  let lat2 := destinationAirport.latitude * π / 180
  let lon1 := originAirport.longitude * π / 180
  let lon2 := destinationAirport.longitude * π / 180
  let dLat := lat2 - lat1
  let dLon := lon2 - lon1
  sin (dLat / 2) * sin (dLat / 2) + cos lat1 * cos lat2 * sin (dLon / 2) * sin (dLon / 2)

/-- The central angle `c = 2 * Math.atan2(Math.sqrt(a), Math.sqrt(1 - a))`. -/
noncomputable def haversineC (originAirport destinationAirport : Airport ℝ) : ℝ :=
  2 * atan2 (√(haversineA originAirport destinationAirport))
    (√(1 - haversineA originAirport destinationAirport))

/-- The distance between two airports, `EARTH_RADIUS_KM * c`. -/
noncomputable def distance (originAirport destinationAirport : Airport ℝ) : ℝ :=
  (EARTH_RADIUS_KM : ℝ) * haversineC originAirport destinationAirport

/-- The handler on a parsed POST body: the response and the data store it leaves. -/
noncomputable def handler (db : Database ℝ) (now : Nat) (quoteRequest : QuoteRequest) :
    Response ℝ × Database ℝ :=
  if missingRequiredFields quoteRequest then (.error 400 "Missing required fields", db)
  else
    match single (db.airports.filter fun p => p.id == quoteRequest.origin_id),
      single (db.airports.filter fun p => p.id == quoteRequest.destination_id) with
    | some originAirport, some destinationAirport =>
      let result := computeQuote db now quoteRequest originAirport destinationAirport
        (distance originAirport destinationAirport)
      (result.1, { db with promo_codes := result.2 })
    | _, _ => (.error 404 "Airport not found", db)

end Handler

/-! ## The flight time and the flight cost in double precision

The numbers of the handler are IEEE 754 doubles: every division, subtraction and product
gives the double nearest to the exact result, the even one of the two when the result lies
half way (`Math.floor` and `Math.ceil` are exact).  This section gives lines 134 to 143 of
the handler, the flight time, its displayed hours and minutes and the flight cost, with that
rounding, over the rationals, of which the doubles are a part.  The doubles have 53
significant bits and exponents from `-1022` on, with the subnormal numbers below.  Overflow
to infinity is not modelled: the properties stated bound the flight time and the hourly rate
so that every result stays below `2 ^ 1024`.  A cruise speed of 0 is outside the properties
stated. -/

section DoublePrecision

/-- The exponent of the binade of `x`: the `e` with `2 ^ e ≤ |x| < 2 ^ (e + 1)`, and `-1022`
for zero and for the subnormal numbers below `2 ^ (-1022)`. -/
def doubleExponent (x : ℚ) : ℤ := if x = 0 then -1022 else max (Int.log 2 |x|) (-1022)

/-- The spacing of the doubles in the binade of `x`: 52 binary places below its exponent. -/
def doubleUlp (x : ℚ) : ℚ := (2 : ℚ) ^ (doubleExponent x - 52)

/-- The integer nearest to `y`, the even one of the two when `y` lies half way. -/
def roundHalfEven (y : ℚ) : ℤ :=
  if y - ⌊y⌋ < 1 / 2 then ⌊y⌋
  else if 1 / 2 < y - ⌊y⌋ then ⌊y⌋ + 1
  else if ⌊y⌋ % 2 = 0 then ⌊y⌋ else ⌊y⌋ + 1

/-- The double nearest to `x`, ties to even (overflow to infinity is not modelled). -/
def roundDouble (x : ℚ) : ℚ := roundHalfEven (x / doubleUlp x) * doubleUlp x

/-- The flight time in hours as the handler holds it: the double nearest to
`distance / cruise_speed_kmh`. -/
def flightTimeHoursDouble (distance : ℚ) (selected : AircraftType ℚ) : ℚ :=
  roundDouble (distance / selected.cruise_speed_kmh)

/-- The displayed hours, `Math.floor(flightTimeHours)`. -/
def hoursDouble (flightTime : ℚ) : Int := ⌊flightTime⌋

/-- The displayed minutes, `Math.floor((flightTimeHours - hours) * 60)`, the difference and
the product rounded to doubles. -/
def minutesDouble (flightTime : ℚ) : Int :=
  ⌊roundDouble (roundDouble (flightTime - (hoursDouble flightTime : ℚ)) * 60)⌋

/-- The billed half hours, `Math.ceil(flightTimeHours * 2)`, the product rounded to a double. -/
def billedHalfHoursDouble (flightTime : ℚ) : Int := ⌈roundDouble (flightTime * 2)⌉

/-- The base flight cost, `hourly_rate * (Math.ceil(flightTimeHours * 2) / 2)`, the quotient
and the product rounded to doubles. -/
def flightCostDouble (distance : ℚ) (selected : AircraftType ℚ) : ℚ :=
  roundDouble (selected.hourly_rate *
    roundDouble ((billedHalfHoursDouble (flightTimeHoursDouble distance selected) : ℚ) / 2))

/-- The flight cost of the whole trip, `isRoundTrip ? flightCost * 2 : flightCost`, the
product rounded to a double. -/
def totalFlightCostDouble (distance : ℚ) (selected : AircraftType ℚ)
    (quoteRequest : QuoteRequest) : ℚ :=
  if isRoundTrip quoteRequest then roundDouble (flightCostDouble distance selected * 2)
  else flightCostDouble distance selected

end DoublePrecision

/-! ## Requests that interleave in the promo code block

The promo code block of the handler awaits the data store twice: once for the lookup of the
record and, when a record was found, once for the update of its `max_uses`.  Each of the two
is one statement on the data store; what another request does to the store between them is
not seen by the request, which writes the value it has read minus one.  A schedule lists, step
by step, which request takes its next step. -/

section Interleaving

variable {α : Type} [LinearOrderedField α] [FloorRing α]

/-- Where a request stands in the promo code block. -/
inductive PromoPhase (α : Type) where
  /-- The lookup has not been made yet. -/
  | start
  /-- The lookup has returned and the local `promoCode` holds its result; the update has not
  been made yet. -/
  | looked (promo : Option (PromoCode α))
  /-- The block is left: the update, if there was a record, is written. -/
  | finished (promo : Option (PromoCode α))
  deriving DecidableEq, Repr

/-- The promo code table together with the phase of every request in flight. -/
structure PromoWorld (α : Type) where
  promo_codes : List (PromoCode α)
  phases : List (PromoPhase α)
  deriving DecidableEq, Repr

/-- The local `promoCode` of a request in a phase: the record its promo discount is computed
from, if any. -/
def PromoPhase.promoCode : PromoPhase α → Option (PromoCode α)
  | .start => none
  | .looked promo => promo
  | .finished promo => promo

/-- The next step of request `i`: at the start the lookup on the table as it is now, after
the lookup the update with the record that was read; a request that has finished, or an
index without a request, changes nothing. -/
def promoBlockStep (now : Nat) (requests : List QuoteRequest) (world : PromoWorld α) (i : Nat) :
    PromoWorld α :=
  match requests[i]?, world.phases[i]? with
  | some quoteRequest, some .start =>
    { world with
      phases := world.phases.set i (.looked (promoCode world.promo_codes now quoteRequest)) }
  | some _, some (.looked promo) =>
    { promo_codes := promoCodesUpdate world.promo_codes promo
      phases := world.phases.set i (.finished promo) }
  | _, _ => world

/-- The world after the steps of a schedule. -/
def promoBlockRun (now : Nat) (requests : List QuoteRequest) (world : PromoWorld α)
    (schedule : List Nat) : PromoWorld α :=
  schedule.foldl (promoBlockStep now requests) world

/-- The world in which every request is at the start of the block. -/
def promoBlockInitial (promo_codes : List (PromoCode α)) (requests : List QuoteRequest) :
    PromoWorld α :=
  { promo_codes := promo_codes, phases := requests.map fun _ => .start }

/-- The number of requests whose promo discount is computed from a record. -/
def redemptions (world : PromoWorld α) : Nat :=
  (world.phases.filter fun phase => phase.promoCode.isSome).length

end Interleaving

/-! ## Sample data -/

section Samples

/-- A small data store: two airports one degree of longitude apart on the equator, three
aircraft types, two extras and three promo codes, the last of which has expired at time 50. -/
def sampleDb (α : Type) [LinearOrderedField α] : Database α :=
  { airports := [⟨1, "AAA", 0, 0⟩, ⟨2, "BBB", 0, 1⟩]
    aircraft_types :=
      [⟨1, "Heavy jet", "heavy", 12, 5000, 800, 9000⟩,
       ⟨2, "Light jet", "light", 4, 1500, 500, 3000⟩,
       ⟨3, "Midsize jet", "midsize", 8, 3000, 700, 4000⟩]
    extras := [⟨1, "Catering", 250⟩, ⟨2, "Wifi", 100⟩]
    promo_codes :=
      [⟨7, "SAVE10", "percentage", 10, true, 100, 1⟩,
       ⟨8, "FLAT5000", "fixed", 5000, true, 100, 3⟩,
       ⟨9, "OLD", "fixed", 50, true, 10, 3⟩] }

/-- The first airport of the sample store. -/
def sampleOrigin (α : Type) [LinearOrderedField α] : Airport α := ⟨1, "AAA", 0, 0⟩

/-- The second airport of the sample store. -/
def sampleDestination (α : Type) [LinearOrderedField α] : Airport α := ⟨2, "BBB", 0, 1⟩

/-- The light jet of the sample store. -/
def lightJet (α : Type) [LinearOrderedField α] : AircraftType α :=
  ⟨2, "Light jet", "light", 4, 1500, 500, 3000⟩

/-- The fixed amount promo code of the sample store. -/
def flatCode (α : Type) [LinearOrderedField α] : PromoCode α :=
  ⟨8, "FLAT5000", "fixed", 5000, true, 100, 3⟩

/-- A one way request for two passengers, with two known extras and an unknown one, the fixed
amount promo code and the elite tier. -/
def sampleRequest : QuoteRequest :=
  { origin_id := 1
    destination_id := 2
    departure_date := "2025-01-01"
    return_date := none
    passengers := 2
    aircraft_type_id := none
    extras := some [1, 2, 5]
    promo_code := some "FLAT5000"
    subscription_tier := "elite" }

/-- The quote for `sampleRequest` at a distance of 550 km: 1.1 h of flight billed as 1.5 h,
and a promo discount that exceeds the costs. -/
def sampleQuote : Quote ℚ :=
  { flight_details :=
      { origin_id := 1
        origin := "AAA"
        destination_id := 2
        destination := "BBB"
        distance_km := 550
        estimated_flight_time := { hours := 1, minutes := 6 }
        departure_date := "2025-01-01"
        return_date := none
        is_round_trip := false
        passengers := 2 }
    aircraft := ⟨2, "Light jet", "light", 4, 1500, 500, 3000⟩
    selected_extras := [⟨1, "Catering", 250⟩, ⟨2, "Wifi", 100⟩]
    pricing :=
      { flight_cost := 4500
        extras_cost := 350
        subscription_discount := { percentage := .number 15, amount := some (1455 / 2) }
        promo_discount := 5000
        subtotal := some (-1755 / 2)
        taxes := some (-1053 / 16)
        total := some (-15093 / 16) } }

/-- The promo code table after the quote for `sampleRequest`. -/
def sampleStore : List (PromoCode ℚ) :=
  [⟨7, "SAVE10", "percentage", 10, true, 100, 1⟩,
   ⟨8, "FLAT5000", "fixed", 5000, true, 100, 2⟩,
   ⟨9, "OLD", "fixed", 50, true, 10, 3⟩]

/-- The sample store with a catalog in which an aircraft type has the id 0. -/
def zeroIdDb (α : Type) [LinearOrderedField α] : Database α :=
  { sampleDb α with
    aircraft_types :=
      [⟨0, "Turboprop", "light", 4, 1500, 500, 2000⟩,
       ⟨1, "Heavy jet", "heavy", 12, 5000, 800, 9000⟩] }

/-- A request for a flight from the first airport back to it, a distance of 0 km, for six
passengers, that asks for the aircraft type with id 0. -/
def zeroIdRequest : QuoteRequest :=
  { sampleRequest with destination_id := 1, passengers := 6, aircraft_type_id := some 0 }

/-- A request for a flight from the first airport back to it for twenty passengers, whom no
aircraft type of the sample store can carry, that names the promo code "FLAT5000". -/
def tooManyPassengersRequest : QuoteRequest :=
  { sampleRequest with destination_id := 1, passengers := 20 }

/-- A request with the tier string "constructor" that asks for the light jet. -/
def constructorRequest : QuoteRequest :=
  { sampleRequest with aircraft_type_id := some 2, subscription_tier := "constructor" }

/-- The percentage promo code of the sample store, with one use left. -/
def saveCode (α : Type) [LinearOrderedField α] : PromoCode α :=
  ⟨7, "SAVE10", "percentage", 10, true, 100, 1⟩

/-- The sample request with the promo code "SAVE10". -/
def saveRequest : QuoteRequest :=
  { sampleRequest with promo_code := some "SAVE10" }

/-- An aircraft type whose cruise speed is the double 1333.3333333333333, which is
`5864062014805333 / 2 ^ 42`, just below 4000 / 3. -/
def fastJet : AircraftType ℚ :=
  ⟨4, "Fast jet", "heavy", 12, 5000, 5864062014805333 / 4398046511104, 9000⟩

end Samples

/-! ## Properties -/

section Properties

set_option linter.unusedSectionVars false
set_option linter.unusedVariables false

variable {α : Type} [LinearOrderedField α] [FloorRing α]

/-- A response that is a quote was assembled, for the aircraft selected, from the steps of the
pipeline, and the promo code table is the one the usage update leaves. -/
theorem computeQuote_eq_ok {db : Database α} {now : Nat} {quoteRequest : QuoteRequest}
    {originAirport destinationAirport : Airport α} {distance : α} {q : Quote α}
    {store : List (PromoCode α)}
    (h : computeQuote db now quoteRequest originAirport destinationAirport distance
      = (.ok q, store)) :
    aircraftUnavailable (aircraft db.aircraft_types distance quoteRequest) = false ∧
    selectedAircraft (aircraft db.aircraft_types distance quoteRequest) = some q.aircraft ∧
    q.pricing = pricing (totalFlightCost distance q.aircraft quoteRequest)
      (extrasCost db.extras quoteRequest) (subscriptionDiscountPercentage quoteRequest)
      (promoDiscount (promoCode db.promo_codes now quoteRequest)
        (totalFlightCost distance q.aircraft quoteRequest) (extrasCost db.extras quoteRequest)) ∧
    q.flight_details.estimated_flight_time =
      { hours := hours (flightTimeHours distance q.aircraft),
        minutes := minutes (flightTimeHours distance q.aircraft) } ∧
    store = promoCodesUpdate db.promo_codes (promoCode db.promo_codes now quoteRequest) := by
  unfold computeQuote at h
  simp only at h
  split at h
  · simp at h
  · rename_i hun
    split at h
    · simp at h
    · rename_i selected hsel
      simp only [Prod.mk.injEq, Response.ok.injEq] at h
      obtain ⟨hq, hs⟩ := h
      subst hq
      refine ⟨by simpa using hun, hsel, rfl, rfl, hs.symm⟩

/-- When the aircraft query yields a selected aircraft, the response is a quote for that
aircraft and the promo code table is the one the usage update leaves. -/
theorem computeQuote_of_selected (db : Database α) (now : Nat) (quoteRequest : QuoteRequest)
    (originAirport destinationAirport : Airport α) (distance : α) (selected : AircraftType α)
    (hun : aircraftUnavailable (aircraft db.aircraft_types distance quoteRequest) = false)
    (hsel : selectedAircraft (aircraft db.aircraft_types distance quoteRequest) = some selected) :
    ∃ q : Quote α,
      computeQuote db now quoteRequest originAirport destinationAirport distance =
        (.ok q, promoCodesUpdate db.promo_codes (promoCode db.promo_codes now quoteRequest)) ∧
      q.aircraft = selected := by
  unfold computeQuote
  simp only [hun, hsel, Bool.false_eq_true, if_false]
  exact ⟨_, rfl, rfl⟩

/-- Claim C1: in every quote the pipeline produces, the subtotal is flight cost plus extras
cost minus the subscription discount amount minus the promo discount, the taxes are the
subtotal times 0.075 and the total is the subtotal plus the taxes, which is the subtotal times
1.075 (a `NaN` amount propagating to all three); when the amount is a number the three are
numbers too, and when the discounts exceed flight cost plus extras cost they are negative:
nothing is clamped to zero. -/
theorem C1_subtotal_taxes_total (db : Database α) (now : Nat) (quoteRequest : QuoteRequest)
    (originAirport destinationAirport : Airport α) (distance : α) (q : Quote α)
    (store : List (PromoCode α))
    (h : computeQuote db now quoteRequest originAirport destinationAirport distance
      = (.ok q, store)) :
    q.pricing.subtotal =
        JsNumber.sub (JsNumber.sub (some (q.pricing.flight_cost + q.pricing.extras_cost))
          q.pricing.subscription_discount.amount) (some q.pricing.promo_discount) ∧
    q.pricing.taxes = JsNumber.mul q.pricing.subtotal (some (75 / 1000)) ∧
    q.pricing.total = JsNumber.add q.pricing.subtotal q.pricing.taxes ∧
    q.pricing.total = JsNumber.mul q.pricing.subtotal (some (1075 / 1000)) ∧
    ∀ amount : α, q.pricing.subscription_discount.amount = some amount →
      ∃ sub tax tot : α,
        q.pricing.subtotal = some sub ∧ q.pricing.taxes = some tax ∧ q.pricing.total = some tot ∧
        sub = q.pricing.flight_cost + q.pricing.extras_cost - amount - q.pricing.promo_discount ∧
        tax = sub * (75 / 1000) ∧ tot = sub + tax ∧ tot = sub * (1075 / 1000) ∧
        (q.pricing.flight_cost + q.pricing.extras_cost < amount + q.pricing.promo_discount →
          sub < 0 ∧ tax < 0 ∧ tot < 0) := by
  obtain ⟨-, -, hp, -, -⟩ := computeQuote_eq_ok h
  rw [hp]
  simp only [pricing, subtotal, taxes, total, taxRate]
  cases hnum : subscriptionDiscountAmount (totalFlightCost distance q.aircraft quoteRequest)
      (extrasCost db.extras quoteRequest) (subscriptionDiscountPercentage quoteRequest) with
  | none => simp [JsNumber.sub, JsNumber.mul, JsNumber.add]
  | some amount =>
    refine ⟨trivial, trivial, trivial, ?_, ?_⟩
    · simp only [JsNumber.sub, JsNumber.mul, JsNumber.add, Option.some_bind, Option.map_some',
        Option.some.injEq]
      ring
    · intro amount' hamount
      simp only [Option.some.injEq] at hamount
      subst hamount
      refine ⟨_, _, _, rfl, rfl, rfl, rfl, rfl, rfl, by ring, ?_⟩
      intro hlt
      have hneg : totalFlightCost distance q.aircraft quoteRequest
          + extrasCost db.extras quoteRequest - amount
          - promoDiscount (promoCode db.promo_codes now quoteRequest)
            (totalFlightCost distance q.aircraft quoteRequest)
            (extrasCost db.extras quoteRequest) < 0 := by linarith
      refine ⟨hneg, ?_, ?_⟩
      · exact mul_neg_of_neg_of_pos hneg (by norm_num)
      · have := mul_neg_of_neg_of_pos hneg (show (0 : α) < 75 / 1000 by norm_num)
        linarith

/-- The pipeline on the sample request at 550 km gives `sampleQuote` and `sampleStore`. -/
theorem sample_computeQuote :
    computeQuote (sampleDb ℚ) 50 sampleRequest (sampleOrigin ℚ) (sampleDestination ℚ) 550
      = (.ok sampleQuote, sampleStore) := by
  decide!

/-- The relations of claim C1 on the sample quote, whose discounts exceed its costs: the
subtotal is a negative number, and the total is the subtotal times 1.075. -/
theorem C1_subtotal_taxes_total_witness :
    computeQuote (sampleDb ℚ) 50 sampleRequest (sampleOrigin ℚ) (sampleDestination ℚ) 550
      = (.ok sampleQuote, sampleStore) ∧
    sampleQuote.pricing.subtotal = some (-1755 / 2) ∧
    sampleQuote.pricing.total
      = JsNumber.mul sampleQuote.pricing.subtotal (some (1075 / 1000)) :=
  ⟨sample_computeQuote, rfl,
    (C1_subtotal_taxes_total (sampleDb ℚ) 50 sampleRequest (sampleOrigin ℚ)
      (sampleDestination ℚ) 550 sampleQuote sampleStore sample_computeQuote).2.2.2.1⟩

/-- The request carries a return date exactly when `return_date` is a string that is not empty. -/
theorem isRoundTrip_iff (quoteRequest : QuoteRequest) :
    isRoundTrip quoteRequest = true ↔
      ∃ date, quoteRequest.return_date = some date ∧ date ≠ "" := by
  unfold isRoundTrip truthyOptStr
  cases quoteRequest.return_date with
  | none => simp
  | some s => simp [truthyStr]

/-- The flight cost when the quotient and the products are taken exactly, without the rounding
to doubles: for a distance that is not negative and an aircraft with positive cruise speed,
with `k` the least integer such that `k / 2` is at least `distance / cruise_speed`, the flight
cost of the trip, which is the `flight_cost` of a quote of `computeQuote`, is
`legs * hourly_rate * k / 2`, with two legs when the request has a return date and one
otherwise.  The handler rounds the quotient to a double before it takes the ceiling; see
`flightCostDouble`. -/
theorem flightCost_half_hours_exact (distance : α) (selected : AircraftType α)
    (quoteRequest : QuoteRequest) (hd : 0 ≤ distance) (hs : 0 < selected.cruise_speed_kmh) :
    IsLeast {k : ℤ | distance / selected.cruise_speed_kmh ≤ (k : α) / 2}
      ⌈distance / selected.cruise_speed_kmh * 2⌉ ∧
    ((∃ date, quoteRequest.return_date = some date ∧ date ≠ "") →
      totalFlightCost distance selected quoteRequest =
        2 * selected.hourly_rate * (⌈distance / selected.cruise_speed_kmh * 2⌉ : α) / 2) ∧
    ((¬ ∃ date, quoteRequest.return_date = some date ∧ date ≠ "") →
      totalFlightCost distance selected quoteRequest =
        1 * selected.hourly_rate * (⌈distance / selected.cruise_speed_kmh * 2⌉ : α) / 2) ∧
    (∀ (db : Database α) (now : Nat) (originAirport destinationAirport : Airport α)
        (q : Quote α) (store : List (PromoCode α)),
      computeQuote db now quoteRequest originAirport destinationAirport distance
        = (.ok q, store) →
      q.aircraft = selected →
      q.pricing.flight_cost = totalFlightCost distance selected quoteRequest) ∧
    flightCost distance selected =
      (⌈distance / selected.cruise_speed_kmh * 2⌉ : α) * (selected.hourly_rate / 2) ∧
    (distance / selected.cruise_speed_kmh = 11 / 10 →
      flightCost distance selected = selected.hourly_rate * (3 / 2)) ∧
    (distance / selected.cruise_speed_kmh = 2224 / 10000 →
      flightCost distance selected = selected.hourly_rate * (1 / 2)) ∧
    ∀ oneWay roundTrip : QuoteRequest, isRoundTrip oneWay = false → isRoundTrip roundTrip = true →
      totalFlightCost distance selected roundTrip
        = 2 * totalFlightCost distance selected oneWay := by
  have _hd := hd
  have _hs := hs
  refine ⟨⟨?_, ?_⟩, ?_, ?_, ?_, ?_, ?_, ?_, ?_⟩
  · show distance / selected.cruise_speed_kmh
      ≤ ((⌈distance / selected.cruise_speed_kmh * 2⌉ : ℤ) : α) / 2
    have := Int.le_ceil (distance / selected.cruise_speed_kmh * 2)
    linarith
  · intro k hk
    have hk' : distance / selected.cruise_speed_kmh ≤ (k : α) / 2 := hk
    exact Int.ceil_le.mpr (by linarith)
  · intro hret
    have hrt := (isRoundTrip_iff quoteRequest).mpr hret
    simp only [totalFlightCost, hrt, if_true, flightCost, flightTimeHours]
    ring
  · intro hret
    have hrt : isRoundTrip quoteRequest = false := by
      cases hb : isRoundTrip quoteRequest with
      | false => rfl
      | true => exact absurd ((isRoundTrip_iff quoteRequest).mp hb) hret
    simp only [totalFlightCost, hrt, flightCost, flightTimeHours]
    simp only [Bool.false_eq_true, if_false]
    ring
  · intro db now originAirport destinationAirport q store hq hsel
    obtain ⟨-, -, hp, -, -⟩ := computeQuote_eq_ok hq
    rw [hp, hsel]
    rfl
  · simp only [flightCost, flightTimeHours]
    ring
  · intro ht
    have hc : ⌈distance / selected.cruise_speed_kmh * 2⌉ = 3 := by
      rw [ht]
      exact Int.ceil_eq_iff.mpr ⟨by norm_num, by norm_num⟩
    simp only [flightCost, flightTimeHours, hc]
    norm_num
  · intro ht
    have hc : ⌈distance / selected.cruise_speed_kmh * 2⌉ = 1 := by
      rw [ht]
      exact Int.ceil_eq_iff.mpr ⟨by norm_num, by norm_num⟩
    simp only [flightCost, flightTimeHours, hc]
    norm_num
  · intro oneWay roundTrip hone hround
    simp only [totalFlightCost, hone, hround, if_true]
    simp only [Bool.false_eq_true, if_false]
    ring

/-- Membership in the result of `aircraftQuery`: the aircraft types of the catalog that
qualify by range and by capacity. -/
theorem mem_aircraftQuery (aircraft_types : List (AircraftType α)) (distance : α)
    (passengers : Nat) (t : AircraftType α) :
    t ∈ aircraftQuery aircraft_types distance passengers ↔
      t ∈ aircraft_types ∧ distance ≤ t.range_km ∧ passengers ≤ t.max_passengers := by
  unfold aircraftQuery
  rw [(List.perm_insertionSort _ _).mem_iff]
  simp only [List.mem_filter, decide_eq_true_eq]
  tauto

/-- The first row of `aircraftQuery` has the lowest hourly rate of all rows. -/
theorem aircraftQuery_head_le (aircraft_types : List (AircraftType α)) (distance : α)
    (passengers : Nat) (t : AircraftType α) (rest : List (AircraftType α))
    (h : aircraftQuery aircraft_types distance passengers = t :: rest)
    (u : AircraftType α) (hu : u ∈ aircraftQuery aircraft_types distance passengers) :
    t.hourly_rate ≤ u.hourly_rate := by
  have htotal : IsTotal (AircraftType α) (fun t u => t.hourly_rate ≤ u.hourly_rate) :=
    ⟨fun a b => le_total a.hourly_rate b.hourly_rate⟩
  have htrans : IsTrans (AircraftType α) (fun t u => t.hourly_rate ≤ u.hourly_rate) :=
    ⟨fun _ _ _ hab hbc => le_trans hab hbc⟩
  have hsorted : List.Sorted (fun t u : AircraftType α => t.hourly_rate ≤ u.hourly_rate)
      (aircraftQuery aircraft_types distance passengers) := by
    unfold aircraftQuery
    exact List.sorted_insertionSort _ _
  rw [h] at hsorted hu
  rcases List.mem_cons.mp hu with rfl | hmem
  · exact le_refl _
  · exact List.rel_of_sorted_cons hsorted u hmem

/-- When the request carries no truthy aircraft type id and no aircraft type of the catalog
qualifies by range and capacity, the response is the 404 error for no suitable aircraft and
the promo codes are untouched. -/
theorem computeQuote_of_no_suitable (db : Database α) (now : Nat) (quoteRequest : QuoteRequest)
    (originAirport destinationAirport : Airport α) (distance : α)
    (hfalsy : truthyOptNum quoteRequest.aircraft_type_id = false)
    (hnone : ¬ ∃ t ∈ db.aircraft_types,
      distance ≤ t.range_km ∧ quoteRequest.passengers ≤ t.max_passengers) :
    computeQuote db now quoteRequest originAirport destinationAirport distance =
      (.error 404 "No suitable aircraft found for this journey", db.promo_codes) := by
  have hfound : aircraft db.aircraft_types distance quoteRequest
      = .rows (aircraftQuery db.aircraft_types distance quoteRequest.passengers) := by
    simp [aircraft, hfalsy]
  have hnil : aircraftQuery db.aircraft_types distance quoteRequest.passengers = [] := by
    apply List.eq_nil_iff_forall_not_mem.mpr
    intro t ht
    exact hnone ⟨t, ((mem_aircraftQuery _ _ _ t).mp ht).1, ((mem_aircraftQuery _ _ _ t).mp ht).2⟩
  simp [computeQuote, hfound, hnil, aircraftUnavailable]

/-- Claim C3: when the request carries no aircraft type id (none, or the falsy id 0) and some
aircraft type of the catalog has a range of at least the distance and a capacity of at least
the passengers requested, the response is a quote whose aircraft is such a qualifying type
with an hourly rate not above that of any qualifying type; when no aircraft type qualifies
(as with 10 passengers and every capacity below 10) no quote is produced: the response is the
404 error for no suitable aircraft, and the promo codes are untouched. -/
theorem C3_cheapest_suitable_aircraft (db : Database α) (now : Nat)
    (quoteRequest : QuoteRequest) (originAirport destinationAirport : Airport α) (distance : α)
    (hno : quoteRequest.aircraft_type_id = none ∨ quoteRequest.aircraft_type_id = some 0) :
    ((∃ t ∈ db.aircraft_types,
        distance ≤ t.range_km ∧ quoteRequest.passengers ≤ t.max_passengers) →
      ∃ q : Quote α,
        (computeQuote db now quoteRequest originAirport destinationAirport distance).1 = .ok q ∧
        q.aircraft ∈ db.aircraft_types ∧
        distance ≤ q.aircraft.range_km ∧ quoteRequest.passengers ≤ q.aircraft.max_passengers ∧
        ∀ u ∈ db.aircraft_types,
          distance ≤ u.range_km → quoteRequest.passengers ≤ u.max_passengers →
          q.aircraft.hourly_rate ≤ u.hourly_rate) ∧
    ((¬ ∃ t ∈ db.aircraft_types,
        distance ≤ t.range_km ∧ quoteRequest.passengers ≤ t.max_passengers) →
      computeQuote db now quoteRequest originAirport destinationAirport distance =
        (.error 404 "No suitable aircraft found for this journey", db.promo_codes)) ∧
    (quoteRequest.passengers = 10 → (∀ t ∈ db.aircraft_types, t.max_passengers < 10) →
      computeQuote db now quoteRequest originAirport destinationAirport distance =
        (.error 404 "No suitable aircraft found for this journey", db.promo_codes)) := by
  have hfalsy : truthyOptNum quoteRequest.aircraft_type_id = false := by
    rcases hno with h | h <;> rw [h] <;> rfl
  have hfound : aircraft db.aircraft_types distance quoteRequest
      = .rows (aircraftQuery db.aircraft_types distance quoteRequest.passengers) := by
    simp [aircraft, hfalsy]
  have hnone : (¬ ∃ t ∈ db.aircraft_types,
        distance ≤ t.range_km ∧ quoteRequest.passengers ≤ t.max_passengers) →
      computeQuote db now quoteRequest originAirport destinationAirport distance =
        (.error 404 "No suitable aircraft found for this journey", db.promo_codes) :=
    computeQuote_of_no_suitable db now quoteRequest originAirport destinationAirport distance
      hfalsy
  refine ⟨?_, hnone, ?_⟩
  · rintro ⟨t, htm, htr, htp⟩
    have hmem : t ∈ aircraftQuery db.aircraft_types distance quoteRequest.passengers :=
      (mem_aircraftQuery _ _ _ t).mpr ⟨htm, htr, htp⟩
    cases hq : aircraftQuery db.aircraft_types distance quoteRequest.passengers with
    | nil => rw [hq] at hmem; simp at hmem
    | cons first rest =>
      have hfirst : first ∈ aircraftQuery db.aircraft_types distance quoteRequest.passengers := by
        rw [hq]; exact List.mem_cons_self _ _
      obtain ⟨hf1, hf2, hf3⟩ := (mem_aircraftQuery _ _ _ first).mp hfirst
      obtain ⟨q, hq1, hq2⟩ := computeQuote_of_selected db now quoteRequest originAirport
        destinationAirport distance first
        (by simp [hfound, hq, aircraftUnavailable]) (by simp [hfound, hq, selectedAircraft])
      refine ⟨q, by rw [hq1], ?_⟩
      rw [hq2]
      · refine ⟨hf1, hf2, hf3, ?_⟩
        intro u hum hur hup
        exact aircraftQuery_head_le _ _ _ first rest hq u
          ((mem_aircraftQuery _ _ _ u).mpr ⟨hum, hur, hup⟩)
  · intro hten hall
    apply hnone
    rintro ⟨t, htm, -, htp⟩
    have := hall t htm
    omega

/-- Claim C4 (amended): when the request carries an aircraft type id that is not zero and the
catalog holds exactly one aircraft type with that id, the response is a quote for exactly
that aircraft type, whatever its range and its capacity: no suitability check is applied and
the response is not the error for no suitable aircraft. -/
theorem C4_requested_aircraft_is_used (db : Database α) (now : Nat)
    (quoteRequest : QuoteRequest) (originAirport destinationAirport : Airport α) (distance : α)
    (id : Nat) (requested : AircraftType α)
    (hid : quoteRequest.aircraft_type_id = some id) (hne : id ≠ 0)
    (hone : (db.aircraft_types.filter fun t => t.id == id) = [requested]) :
    selectedAircraft (aircraft db.aircraft_types distance quoteRequest) = some requested ∧
    ∃ q : Quote α,
      (computeQuote db now quoteRequest originAirport destinationAirport distance).1 = .ok q ∧
      q.aircraft = requested := by
  have htruthy : truthyOptNum quoteRequest.aircraft_type_id = true := by
    rw [hid]
    simpa [truthyOptNum, truthyNum] using hne
  have hfilter : (db.aircraft_types.filter fun t => some t.id == quoteRequest.aircraft_type_id)
      = [requested] := by
    rw [← hone, hid]
    apply List.filter_congr
    intro t _
    by_cases hti : t.id = id <;> simp [hti]
  have hfound : aircraft db.aircraft_types distance quoteRequest = .row requested := by
    simp only [aircraft, htruthy, if_true, hfilter, single]
  obtain ⟨q, hq1, hq2⟩ := computeQuote_of_selected db now quoteRequest originAirport
    destinationAirport distance requested
    (by rw [hfound]; rfl) (by rw [hfound]; rfl)
  exact ⟨by rw [hfound]; rfl, q, by rw [hq1], hq2⟩

/-- For a tier that is not a name inherited from `Object.prototype`, the percentage is the
number of the table (0, 5, 10, 15) or 0 for an unknown tier, and the subscription discount is
that share of flight cost plus extras cost. -/
theorem subscriptionDiscount_of_plain_tier (quoteRequest : QuoteRequest) (totalFlight extras : α)
    (hplain : quoteRequest.subscription_tier ∉ objectPrototypeKeys) :
    ∃ percentage : Nat,
      percentage =
        (if quoteRequest.subscription_tier = "premium" then 5
         else if quoteRequest.subscription_tier = "business" then 10
         else if quoteRequest.subscription_tier = "elite" then 15 else 0) ∧
      (subscriptionDiscountPercentage quoteRequest : JsValue α) = .number (percentage : α) ∧
      subscriptionDiscountAmount totalFlight extras
          (subscriptionDiscountPercentage quoteRequest : JsValue α)
        = some ((totalFlight + extras) * ((percentage : α) / 100)) := by
  have key : ∃ percentage : Nat,
      percentage =
        (if quoteRequest.subscription_tier = "premium" then 5
         else if quoteRequest.subscription_tier = "business" then 10
         else if quoteRequest.subscription_tier = "elite" then 15 else 0) ∧
      (subscriptionDiscountPercentage quoteRequest : JsValue α) = .number (percentage : α) := by
    unfold subscriptionDiscountPercentage SUBSCRIPTION_DISCOUNTS
    by_cases h1 : quoteRequest.subscription_tier = "free"
    · exact ⟨0, by simp [h1], by simp [h1, JsValue.or, JsValue.truthy]⟩
    by_cases h2 : quoteRequest.subscription_tier = "premium"
    · exact ⟨5, by simp [h2], by simp [h2, JsValue.or, JsValue.truthy]⟩
    by_cases h3 : quoteRequest.subscription_tier = "business"
    · exact ⟨10, by simp [h3], by simp [h3, JsValue.or, JsValue.truthy]⟩
    by_cases h4 : quoteRequest.subscription_tier = "elite"
    · exact ⟨15, by simp [h4], by simp [h4, JsValue.or, JsValue.truthy]⟩
    · exact ⟨0, by simp [h2, h3, h4], by simp [h1, h2, h3, h4, hplain, JsValue.or, JsValue.truthy]⟩
  obtain ⟨percentage, hp1, hp2⟩ := key
  refine ⟨percentage, hp1, hp2, ?_⟩
  rw [hp2]
  simp [subscriptionDiscountAmount, JsValue.toNumber, JsNumber.mul, JsNumber.div]

/-- For a tier that is a name inherited from `Object.prototype`, the percentage is the
inherited member, and the subscription discount amount is `NaN`. -/
theorem subscriptionDiscount_of_inherited_name (quoteRequest : QuoteRequest)
    (totalFlight extras : α) (hin : quoteRequest.subscription_tier ∈ objectPrototypeKeys) :
    (subscriptionDiscountPercentage quoteRequest : JsValue α) = .object ∧
    subscriptionDiscountAmount totalFlight extras
      (subscriptionDiscountPercentage quoteRequest : JsValue α) = none := by
  have h : (subscriptionDiscountPercentage quoteRequest : JsValue α) = .object := by
    simp only [objectPrototypeKeys, List.mem_cons, List.mem_singleton, List.not_mem_nil,
      or_false] at hin
    rcases hin with h | h | h | h | h | h | h | h | h | h | h <;>
      simp [subscriptionDiscountPercentage, SUBSCRIPTION_DISCOUNTS, objectPrototypeKeys,
        JsValue.or, JsValue.truthy, h]
  rw [h]
  exact ⟨rfl, rfl⟩

/-- Claim C5 (the case the code misses): for the tier string "constructor", which is not a
tier of the table, the lookup finds the member inherited from `Object.prototype`, so the
percentage is that function and not 0, and the subscription discount amount is `NaN` for
every flight cost and extras cost, with the subtotal, taxes and total of the pricing block
`NaN` as well. -/
theorem C5_inherited_name_as_tier (quoteRequest : QuoteRequest) (totalFlight extras promo : α) :
    (subscriptionDiscountPercentage { quoteRequest with subscription_tier := "constructor" }
      : JsValue α) = .object ∧
    (subscriptionDiscountPercentage { quoteRequest with subscription_tier := "constructor" }
      : JsValue α) ≠ .number 0 ∧
    subscriptionDiscountAmount totalFlight extras
      (subscriptionDiscountPercentage { quoteRequest with subscription_tier := "constructor" })
      = none ∧
    (pricing totalFlight extras
      (subscriptionDiscountPercentage { quoteRequest with subscription_tier := "constructor" })
      promo).total = none := by
  have h : (subscriptionDiscountPercentage
      { quoteRequest with subscription_tier := "constructor" } : JsValue α) = .object :=
    (subscriptionDiscount_of_inherited_name
      { quoteRequest with subscription_tier := "constructor" } totalFlight extras
      (by simp [objectPrototypeKeys])).1
  rw [h]
  refine ⟨rfl, by simp, rfl, rfl⟩

/-- In a table whose rows have pairwise different keys, a filter that accepts a row of the
table and only rows with the key of that row returns exactly that row. -/
theorem filter_eq_singleton_of_nodup_key {β κ : Type} (key : β → κ) (accept : β → Bool) :
    ∀ (l : List β) (p : β), (l.map key).Nodup → p ∈ l → accept p = true →
      (∀ r ∈ l, accept r = true → key r = key p) → l.filter accept = [p] := by
  intro l
  induction l with
  | nil => intro p _ hp; simp at hp
  | cons a l ih =>
    intro p hnodup hp hacc hkey
    rw [List.map_cons, List.nodup_cons] at hnodup
    obtain ⟨hnotin, hnodup'⟩ := hnodup
    rcases List.mem_cons.mp hp with rfl | hpl
    · have hrest : l.filter accept = [] := by
        apply List.filter_eq_nil_iff.mpr
        intro r hr hrt
        apply hnotin
        rw [← hkey r (List.mem_cons_of_mem _ hr) hrt]
        exact List.mem_map_of_mem key hr
      rw [List.filter_cons_of_pos hacc, hrest]
    · have ha : ¬ accept a = true := by
        intro hat
        apply hnotin
        rw [hkey a (List.mem_cons_self _ _) hat]
        exact List.mem_map_of_mem key hpl
      rw [List.filter_cons_of_neg ha]
      exact ih p hnodup' hpl hacc fun r hr => hkey r (List.mem_cons_of_mem _ hr)

/-- The record the promo code lookup finds is a record of the table that carries the code of
the request and is eligible: active, valid until now or later, with uses left. -/
theorem promoCode_eq_some (promo_codes : List (PromoCode α)) (now : Nat)
    (quoteRequest : QuoteRequest) (p : PromoCode α)
    (h : promoCode promo_codes now quoteRequest = some p) :
    p ∈ promo_codes ∧ quoteRequest.promo_code = some p.code ∧ p.code ≠ "" ∧
      p.is_active = true ∧ now ≤ p.valid_until ∧ 0 < p.max_uses := by
  unfold promoCode at h
  cases hc : quoteRequest.promo_code with
  | none => rw [hc] at h; simp at h
  | some code =>
    rw [hc] at h
    simp only at h
    split at h
    · rename_i htruthy
      unfold promoCodeQuery at h
      generalize hl : (promo_codes.filter fun p =>
        p.code == code && p.is_active == true && decide (now ≤ p.valid_until)
          && decide (0 < p.max_uses)) = l at h
      match l, h with
      | [r], h =>
        simp only [single, Option.some.injEq] at h
        subst h
        have hmem : r ∈ promo_codes.filter fun p =>
            p.code == code && p.is_active == true && decide (now ≤ p.valid_until)
              && decide (0 < p.max_uses) := by
          rw [hl]; exact List.mem_singleton_self r
        rw [List.mem_filter] at hmem
        obtain ⟨hm, hcond⟩ := hmem
        simp only [Bool.and_eq_true, beq_iff_eq, decide_eq_true_eq] at hcond
        obtain ⟨⟨⟨h1, h2⟩, h3⟩, h4⟩ := hcond
        refine ⟨hm, by rw [h1], ?_, h2, h3, h4⟩
        rw [h1]
        simpa [truthyStr] using htruthy
    · simp at h

/-- Without an eligible record carrying the code of the request, the lookup finds nothing. -/
theorem promoCode_eq_none (promo_codes : List (PromoCode α)) (now : Nat)
    (quoteRequest : QuoteRequest)
    (h : ∀ p ∈ promo_codes, quoteRequest.promo_code = some p.code →
      ¬ (p.is_active = true ∧ now ≤ p.valid_until ∧ 0 < p.max_uses)) :
    promoCode promo_codes now quoteRequest = none := by
  cases hp : promoCode promo_codes now quoteRequest with
  | none => rfl
  | some p =>
    obtain ⟨h1, h2, -, h4, h5, h6⟩ := promoCode_eq_some promo_codes now quoteRequest p hp
    exact absurd ⟨h4, h5, h6⟩ (h p h1 h2)

/-- Claim C6: in a quote to which an eligible promo code is applied, the promo discount is
`(flight_cost + extras_cost) * discount_value / 100` for the type "percentage" (10 percent of
1000 is 100) and the `discount_value` itself for every other type, whatever the base amount
(a value of 50 gives 50); it is computed on the base before any discount, so it is the same
for every subscription tier; and it is 0 when the request supplies no promo code or the table
has no eligible record for the code. -/
theorem C6_promo_discount (db : Database α) (now : Nat) (quoteRequest : QuoteRequest)
    (originAirport destinationAirport : Airport α) (distance : α) (q : Quote α)
    (store : List (PromoCode α))
    (h : computeQuote db now quoteRequest originAirport destinationAirport distance
      = (.ok q, store)) :
    (∀ p : PromoCode α, promoCode db.promo_codes now quoteRequest = some p →
      (p.discount_type = "percentage" → q.pricing.promo_discount =
        (q.pricing.flight_cost + q.pricing.extras_cost) * p.discount_value / 100) ∧
      (p.discount_type ≠ "percentage" → q.pricing.promo_discount = p.discount_value)) ∧
    (∀ (p : PromoCode α) (totalFlight extras : α), p.discount_type = "percentage" →
      p.discount_value = 10 → totalFlight + extras = 1000 →
      promoDiscount (some p) totalFlight extras = 100) ∧
    (∀ (p : PromoCode α) (totalFlight extras : α), p.discount_type ≠ "percentage" →
      p.discount_value = 50 → promoDiscount (some p) totalFlight extras = 50) ∧
    (∀ (tier : String) (q' : Quote α) (store' : List (PromoCode α)),
      computeQuote db now { quoteRequest with subscription_tier := tier } originAirport
        destinationAirport distance = (.ok q', store') →
      q'.pricing.promo_discount = q.pricing.promo_discount) ∧
    (quoteRequest.promo_code = none → q.pricing.promo_discount = 0) ∧
    ((∀ p ∈ db.promo_codes, quoteRequest.promo_code = some p.code →
        ¬ (p.is_active = true ∧ now ≤ p.valid_until ∧ 0 < p.max_uses)) →
      q.pricing.promo_discount = 0) := by
  obtain ⟨-, hsel, hp, -, -⟩ := computeQuote_eq_ok h
  have hdisc : q.pricing.promo_discount = promoDiscount (promoCode db.promo_codes now quoteRequest)
      (totalFlightCost distance q.aircraft quoteRequest) (extrasCost db.extras quoteRequest) := by
    rw [hp]; rfl
  have hflight : q.pricing.flight_cost = totalFlightCost distance q.aircraft quoteRequest := by
    rw [hp]; rfl
  have hextras : q.pricing.extras_cost = extrasCost db.extras quoteRequest := by
    rw [hp]; rfl
  refine ⟨?_, ?_, ?_, ?_, ?_, ?_⟩
  · intro p hfound
    rw [hdisc, hflight, hextras, hfound]
    refine ⟨fun hty => ?_, fun hty => ?_⟩
    · simp only [promoDiscount, hty, if_true]
      ring
    · simp only [promoDiscount, hty, if_false]
  · intro p totalFlight extras hty hval hbase
    simp only [promoDiscount, hty, if_true, hval, hbase]
    norm_num
  · intro p totalFlight extras hty hval
    simp only [promoDiscount, hty, if_false, hval]
  · intro tier q' store' h'
    obtain ⟨-, hsel', hp', -, -⟩ := computeQuote_eq_ok h'
    have hac : q'.aircraft = q.aircraft := by
      have h1 : aircraft db.aircraft_types distance
          { quoteRequest with subscription_tier := tier }
          = aircraft db.aircraft_types distance quoteRequest := rfl
      rw [h1, hsel] at hsel'
      exact (Option.some.inj hsel').symm
    rw [hdisc, hp', hac]
    rfl
  · intro hnone
    rw [hdisc]
    simp [promoCode, hnone, promoDiscount]
  · intro hnot
    rw [hdisc, promoCode_eq_none db.promo_codes now quoteRequest hnot]
    rfl

/-- Claim C7 (amended): for a request that is answered with a quote, over a promo code table
in which no two records share a code or an id: if the request names a code (a string that is
not empty) whose record is active, valid until now or later and has uses left, the table
afterwards is the old one with that record's remaining uses lowered by exactly one, to a
value that is still not negative, and every other record unchanged; if the request names no
code, or the record of the code it names fails one of the three conditions, the table is
unchanged and the promo discount is 0. -/
theorem C7_promo_table_update (db : Database α) (now : Nat) (quoteRequest : QuoteRequest)
    (originAirport destinationAirport : Airport α) (distance : α) (q : Quote α)
    (store : List (PromoCode α))
    (h : computeQuote db now quoteRequest originAirport destinationAirport distance
      = (.ok q, store))
    (hcodes : (db.promo_codes.map fun r => r.code).Nodup)
    (hids : (db.promo_codes.map fun r => r.id).Nodup) :
    (∀ p ∈ db.promo_codes, quoteRequest.promo_code = some p.code → p.code ≠ "" →
      p.is_active = true → now ≤ p.valid_until → 0 < p.max_uses →
      store = db.promo_codes.map
        (fun r => if r = p then { r with max_uses := r.max_uses - 1 } else r) ∧
      0 ≤ p.max_uses - 1 ∧
      promoCode db.promo_codes now quoteRequest = some p) ∧
    (quoteRequest.promo_code = none ∨ quoteRequest.promo_code = some "" →
      store = db.promo_codes ∧ q.pricing.promo_discount = 0) ∧
    (∀ p ∈ db.promo_codes, quoteRequest.promo_code = some p.code →
      (p.is_active = false ∨ p.valid_until < now ∨ p.max_uses ≤ 0) →
      store = db.promo_codes ∧ q.pricing.promo_discount = 0) := by
  obtain ⟨-, -, hp, -, hstore⟩ := computeQuote_eq_ok h
  have hdisc : q.pricing.promo_discount = promoDiscount (promoCode db.promo_codes now quoteRequest)
      (totalFlightCost distance q.aircraft quoteRequest) (extrasCost db.extras quoteRequest) := by
    rw [hp]; rfl
  have hnothing : promoCode db.promo_codes now quoteRequest = none →
      store = db.promo_codes ∧ q.pricing.promo_discount = 0 := by
    intro hnone
    rw [hstore, hdisc, hnone]
    exact ⟨rfl, rfl⟩
  refine ⟨?_, ?_, ?_⟩
  · intro p hmem hcode hne hactive hvalid huses
    have hfilter : (db.promo_codes.filter fun r =>
        r.code == p.code && r.is_active == true && decide (now ≤ r.valid_until)
          && decide (0 < r.max_uses)) = [p] := by
      apply filter_eq_singleton_of_nodup_key (fun r : PromoCode α => r.code) _ _ p hcodes hmem
      · simp [hactive, hvalid, huses]
      · intro r _ hr
        simp only [Bool.and_eq_true, beq_iff_eq, decide_eq_true_eq] at hr
        exact hr.1.1.1
    have hfound : promoCode db.promo_codes now quoteRequest = some p := by
      have htruthy : truthyStr p.code = true := by simpa [truthyStr] using hne
      simp only [promoCode, hcode, htruthy, if_true, promoCodeQuery, hfilter, single]
    refine ⟨?_, by omega, hfound⟩
    rw [hstore, hfound]
    simp only [promoCodesUpdate]
    apply List.map_congr_left
    intro r hr
    by_cases hrp : r = p
    · subst hrp
      simp
    · have hidne : r.id ≠ p.id := fun hid => hrp (List.inj_on_of_nodup_map hids hr hmem hid)
      simp [hrp, hidne]
  · intro hno
    apply hnothing
    rcases hno with hno | hno <;> simp [promoCode, hno, truthyStr]
  · intro p hmem hcode hfail
    apply hnothing
    apply promoCode_eq_none
    intro p' hmem' hcode' helig
    have hsame : p' = p := by
      apply List.inj_on_of_nodup_map hcodes hmem' hmem
      rw [hcode] at hcode'
      exact (Option.some.inj hcode').symm
    subst hsame
    obtain ⟨h1, h2, h3⟩ := helig
    rcases hfail with hf | hf | hf
    · rw [h1] at hf; exact Bool.noConfusion hf
    · omega
    · omega

/-! ### Signs of the components of a quote -/

/-- A sum of prices that are not negative, started from a value that is not negative, is not
negative. -/
theorem foldl_price_nonneg (l : List (Extra α)) :
    ∀ init : α, 0 ≤ init → (∀ e ∈ l, 0 ≤ e.price) →
      0 ≤ l.foldl (fun sum extra => sum + extra.price) init := by
  induction l with
  | nil => intro init hinit _; simpa using hinit
  | cons a l ih =>
    intro init hinit hall
    rw [List.foldl_cons]
    exact ih _ (add_nonneg hinit (hall a (List.mem_cons_self _ _)))
      fun e he => hall e (List.mem_cons_of_mem _ he)

/-- The extras cost is not negative when no extra has a negative price. -/
theorem extrasCost_nonneg (extras : List (Extra α)) (quoteRequest : QuoteRequest)
    (hprice : ∀ e ∈ extras, 0 ≤ e.price) : 0 ≤ extrasCost extras quoteRequest := by
  unfold extrasCost
  apply foldl_price_nonneg _ 0 (le_refl 0)
  intro e he
  unfold selectedExtras at he
  split at he
  · split at he
    · exact hprice e (List.mem_filter.mp he).1
    · simp at he
  · simp at he

/-- For a distance that is not negative, a positive cruise speed and an hourly rate that is
not negative, the flight time, its displayed hours and minutes and the flight cost are not
negative, and the minutes are below 60. -/
theorem flight_components_nonneg (distance : α) (selected : AircraftType α)
    (quoteRequest : QuoteRequest) (hd : 0 ≤ distance) (hs : 0 < selected.cruise_speed_kmh)
    (hr : 0 ≤ selected.hourly_rate) :
    0 ≤ flightTimeHours distance selected ∧
    0 ≤ hours (flightTimeHours distance selected) ∧
    0 ≤ minutes (flightTimeHours distance selected) ∧
    minutes (flightTimeHours distance selected) < 60 ∧
    0 ≤ flightCost distance selected ∧
    0 ≤ totalFlightCost distance selected quoteRequest := by
  have ht : 0 ≤ flightTimeHours distance selected := div_nonneg hd hs.le
  have hfract : flightTimeHours distance selected - (hours (flightTimeHours distance selected) : α)
      = Int.fract (flightTimeHours distance selected) := rfl
  have hc : 0 ≤ flightCost distance selected := by
    unfold flightCost
    have hceil : (0 : α) ≤ (⌈flightTimeHours distance selected * 2⌉ : α) := by
      exact_mod_cast Int.ceil_nonneg (mul_nonneg ht (by norm_num))
    positivity
  refine ⟨ht, Int.floor_nonneg.mpr ht, ?_, ?_, hc, ?_⟩
  · unfold minutes
    rw [hfract]
    exact Int.floor_nonneg.mpr (mul_nonneg (Int.fract_nonneg _) (by norm_num))
  · unfold minutes
    rw [hfract, Int.floor_lt]
    have := Int.fract_lt_one (flightTimeHours distance selected)
    push_cast
    linarith
  · unfold totalFlightCost
    split
    · positivity
    · exact hc

/-- The promo discount is not negative when the base amount and the discount values of the
table are not negative. -/
theorem promoDiscount_nonneg (promo_codes : List (PromoCode α)) (now : Nat)
    (quoteRequest : QuoteRequest) (totalFlight extras : α) (hbase : 0 ≤ totalFlight + extras)
    (hvalue : ∀ p ∈ promo_codes, 0 ≤ p.discount_value) :
    0 ≤ promoDiscount (promoCode promo_codes now quoteRequest) totalFlight extras := by
  cases hp : promoCode promo_codes now quoteRequest with
  | none => exact le_refl 0
  | some p =>
    have hv := hvalue p (promoCode_eq_some promo_codes now quoteRequest p hp).1
    unfold promoDiscount
    simp only
    split
    · positivity
    · exact hv

/-- The part of claim C10 that follows the distance and holds: for a tier that is not a name
inherited from `Object.prototype`, a distance that is not negative, a positive cruise speed,
and hourly rate, extra prices and promo discount values that are not negative, the hours and
minutes, the flight cost, the extras cost, the subscription discount amount and the promo
discount of a quote are not negative. -/
theorem quote_components_nonneg (db : Database α) (now : Nat) (quoteRequest : QuoteRequest)
    (originAirport destinationAirport : Airport α) (distance : α) (q : Quote α)
    (store : List (PromoCode α))
    (h : computeQuote db now quoteRequest originAirport destinationAirport distance
      = (.ok q, store))
    (hplain : quoteRequest.subscription_tier ∉ objectPrototypeKeys)
    (hd : 0 ≤ distance)
    (hspeed : ∀ t ∈ db.aircraft_types, 0 < t.cruise_speed_kmh)
    (hrate : ∀ t ∈ db.aircraft_types, 0 ≤ t.hourly_rate)
    (hprice : ∀ e ∈ db.extras, 0 ≤ e.price)
    (hvalue : ∀ p ∈ db.promo_codes, 0 ≤ p.discount_value) :
    0 ≤ q.flight_details.estimated_flight_time.hours ∧
    0 ≤ q.flight_details.estimated_flight_time.minutes ∧
    0 ≤ q.pricing.flight_cost ∧ 0 ≤ q.pricing.extras_cost ∧
    (∃ amount : α, q.pricing.subscription_discount.amount = some amount ∧ 0 ≤ amount) ∧
    0 ≤ q.pricing.promo_discount := by
  obtain ⟨hun, hsel, hp, htime, -⟩ := computeQuote_eq_ok h
  have hmem : q.aircraft ∈ db.aircraft_types := by
    unfold aircraft at hsel
    split at hsel
    · split at hsel
      · rename_i t hsingle
        simp only [selectedAircraft, Option.some.injEq] at hsel
        subst hsel
        generalize hl : (db.aircraft_types.filter
          fun t => some t.id == quoteRequest.aircraft_type_id) = l at hsingle
        match l, hsingle with
        | [r], hsingle =>
          have hrt : r = q.aircraft := by simpa [single] using hsingle
          have : r ∈ db.aircraft_types.filter
              fun t => some t.id == quoteRequest.aircraft_type_id := by
            rw [hl]; exact List.mem_singleton_self r
          rw [← hrt]
          exact (List.mem_filter.mp this).1
      · simp [selectedAircraft] at hsel
    · simp only [selectedAircraft] at hsel
      exact ((mem_aircraftQuery _ _ _ _).mp (List.mem_of_mem_head? hsel)).1
  obtain ⟨-, hh, hm, -, -, htf⟩ := flight_components_nonneg distance q.aircraft quoteRequest hd
    (hspeed _ hmem) (hrate _ hmem)
  have hex := extrasCost_nonneg db.extras quoteRequest hprice
  obtain ⟨percentage, -, -, hamount⟩ := subscriptionDiscount_of_plain_tier quoteRequest
    (totalFlightCost distance q.aircraft quoteRequest) (extrasCost db.extras quoteRequest) hplain
  rw [htime, hp]
  refine ⟨hh, hm, htf, hex, ⟨_, hamount, ?_⟩, ?_⟩
  · have : (0 : α) ≤ (percentage : α) := Nat.cast_nonneg _
    positivity
  · exact promoDiscount_nonneg _ _ _ _ _ (add_nonneg htf hex) hvalue

/-! ### The theorems on the sample data -/

/-- Claim C3 on the sample store: two passengers at 550 km get a qualifying aircraft with the
lowest hourly rate, and twenty passengers, whom no aircraft type can carry, get the 404
error. -/
theorem C3_cheapest_suitable_aircraft_witness :
    (∃ q : Quote ℚ,
      (computeQuote (sampleDb ℚ) 50 sampleRequest (sampleOrigin ℚ) (sampleDestination ℚ) 550).1
        = .ok q ∧
      q.aircraft ∈ (sampleDb ℚ).aircraft_types ∧
      550 ≤ q.aircraft.range_km ∧ sampleRequest.passengers ≤ q.aircraft.max_passengers ∧
      ∀ u ∈ (sampleDb ℚ).aircraft_types,
        550 ≤ u.range_km → sampleRequest.passengers ≤ u.max_passengers →
        q.aircraft.hourly_rate ≤ u.hourly_rate) ∧
    computeQuote (sampleDb ℚ) 50 { sampleRequest with passengers := 20 } (sampleOrigin ℚ)
        (sampleDestination ℚ) 550
      = (.error 404 "No suitable aircraft found for this journey", (sampleDb ℚ).promo_codes) :=
  ⟨(C3_cheapest_suitable_aircraft (sampleDb ℚ) 50 sampleRequest (sampleOrigin ℚ)
      (sampleDestination ℚ) 550 (Or.inl rfl)).1 ⟨lightJet ℚ, by decide, by decide, by decide⟩,
    (C3_cheapest_suitable_aircraft (sampleDb ℚ) 50 { sampleRequest with passengers := 20 }
      (sampleOrigin ℚ) (sampleDestination ℚ) 550 (Or.inl rfl)).2.1 (by decide)⟩

/-- Claim C4 (amended) on the sample store: the light jet is asked for by its id 2 and is
used for ten passengers over 2000 km, although it carries four passengers over 1500 km. -/
theorem C4_requested_aircraft_is_used_witness :
    (lightJet ℚ).max_passengers < 10 ∧ (lightJet ℚ).range_km < 2000 ∧
    selectedAircraft (aircraft (sampleDb ℚ).aircraft_types 2000
      { sampleRequest with passengers := 10, aircraft_type_id := some 2 }) = some (lightJet ℚ) :=
  ⟨by decide, by decide,
    (C4_requested_aircraft_is_used (sampleDb ℚ) 50
      { sampleRequest with passengers := 10, aircraft_type_id := some 2 } (sampleOrigin ℚ)
      (sampleDestination ℚ) 2000 2 (lightJet ℚ) rfl (by decide) (by decide)).1⟩

/-- Claim C6 on the sample quote: the fixed amount code gives its value as the discount. -/
theorem C6_promo_discount_witness :
    promoCode (sampleDb ℚ).promo_codes 50 sampleRequest = some (flatCode ℚ) ∧
    sampleQuote.pricing.promo_discount = (flatCode ℚ).discount_value :=
  ⟨by decide,
    ((C6_promo_discount (sampleDb ℚ) 50 sampleRequest (sampleOrigin ℚ) (sampleDestination ℚ)
      550 sampleQuote sampleStore sample_computeQuote).1 (flatCode ℚ) (by decide)).2
      (by decide)⟩

/-- Claim C7 (amended) on the sample quote: the table afterwards is the old one with the
record of "FLAT5000" lowered from three uses to two. -/
theorem C7_promo_table_update_witness :
    sampleStore = (sampleDb ℚ).promo_codes.map
      (fun r => if r = flatCode ℚ then { r with max_uses := r.max_uses - 1 } else r) ∧
    (0 : Int) ≤ (flatCode ℚ).max_uses - 1 :=
  ⟨((C7_promo_table_update (sampleDb ℚ) 50 sampleRequest (sampleOrigin ℚ)
      (sampleDestination ℚ) 550 sampleQuote sampleStore sample_computeQuote (by decide)
      (by decide)).1 (flatCode ℚ) (by decide) (by decide) (by decide) (by decide) (by decide)
      (by decide)).1,
    by decide⟩

/-! ### The displayed flight time -/

/-- For a flight time `t` that is not negative: the displayed hours are not negative, the
displayed minutes lie between 0 and 59, `60 * hours + minutes` is `floor (60 * t)`, and the
displayed time is at most `t`, which is at most the billed time `ceil (t * 2) / 2`. -/
theorem displayed_time_of_nonneg (t : α) (ht : 0 ≤ t) :
    0 ≤ hours t ∧ 0 ≤ minutes t ∧ minutes t ≤ 59 ∧
    60 * hours t + minutes t = ⌊60 * t⌋ ∧
    (hours t : α) + (minutes t : α) / 60 ≤ t ∧
    t ≤ (⌈t * 2⌉ : α) / 2 := by
  have hmin : minutes t = ⌊Int.fract t * 60⌋ := rfl
  have hhours : hours t = ⌊t⌋ := rfl
  have h0 : 0 ≤ Int.fract t * 60 := mul_nonneg (Int.fract_nonneg t) (by norm_num)
  have h1 : Int.fract t * 60 < 60 := by
    have := Int.fract_lt_one t
    linarith
  have hsplit : (⌊t⌋ : α) + Int.fract t = t := Int.floor_add_fract t
  have hm0 : 0 ≤ minutes t := by
    rw [hmin]
    exact Int.floor_nonneg.mpr h0
  have hm60 : minutes t < 60 := by
    rw [hmin, Int.floor_lt]
    push_cast
    exact h1
  have hmle : (minutes t : α) ≤ Int.fract t * 60 := by
    rw [hmin]
    exact Int.floor_le _
  refine ⟨Int.floor_nonneg.mpr ht, hm0, by omega, ?_, ?_, ?_⟩
  · have h60 : 60 * t = ((60 * ⌊t⌋ : ℤ) : α) + Int.fract t * 60 := by
      push_cast
      linarith
    rw [h60, Int.floor_int_add, hmin, hhours]
  · rw [hhours]
    linarith
  · have := Int.le_ceil (t * 2)
    linarith

/-- The displayed flight time when the quotient, the difference and the product are taken
exactly, without the rounding to doubles: with `t` the distance divided by the cruise speed,
the hours are `floor t` and the minutes `floor ((t - hours) * 60)`, between 0 and 59, and
`60 * hours + minutes` is `floor (60 * t)`; the displayed time of a quote of `computeQuote`
is made of these two.  The handler rounds the quotient and the product to doubles before it
takes the floors; see `minutesDouble`. -/
theorem displayed_flight_time_exact (distance : α) (selected : AircraftType α)
    (hd : 0 ≤ distance) (hs : 0 < selected.cruise_speed_kmh) :
    hours (flightTimeHours distance selected) = ⌊distance / selected.cruise_speed_kmh⌋ ∧
    minutes (flightTimeHours distance selected) =
      ⌊(distance / selected.cruise_speed_kmh
        - ((⌊distance / selected.cruise_speed_kmh⌋ : ℤ) : α)) * 60⌋ ∧
    0 ≤ hours (flightTimeHours distance selected) ∧
    0 ≤ minutes (flightTimeHours distance selected) ∧
    minutes (flightTimeHours distance selected) ≤ 59 ∧
    60 * hours (flightTimeHours distance selected) + minutes (flightTimeHours distance selected)
      = ⌊60 * (distance / selected.cruise_speed_kmh)⌋ ∧
    (hours (flightTimeHours distance selected) : α)
        + (minutes (flightTimeHours distance selected) : α) / 60
      ≤ distance / selected.cruise_speed_kmh ∧
    (hours (flightTimeHours distance selected) : α)
        + (minutes (flightTimeHours distance selected) : α) / 60
      ≤ (⌈distance / selected.cruise_speed_kmh * 2⌉ : α) / 2 ∧
    ∀ (db : Database α) (now : Nat) (quoteRequest : QuoteRequest)
        (originAirport destinationAirport : Airport α) (q : Quote α)
        (store : List (PromoCode α)),
      computeQuote db now quoteRequest originAirport destinationAirport distance
        = (.ok q, store) →
      q.aircraft = selected →
      q.flight_details.estimated_flight_time =
        { hours := hours (flightTimeHours distance selected),
          minutes := minutes (flightTimeHours distance selected) } := by
  have ht : 0 ≤ flightTimeHours distance selected := div_nonneg hd hs.le
  obtain ⟨hh, hm0, hm59, hsum, hle, hbill⟩ :=
    displayed_time_of_nonneg (flightTimeHours distance selected) ht
  refine ⟨rfl, rfl, hh, hm0, hm59, hsum, hle, le_trans hle hbill, ?_⟩
  intro db now quoteRequest originAirport destinationAirport q store hq hsel
  obtain ⟨-, -, -, htime, -⟩ := computeQuote_eq_ok hq
  rw [htime, hsel]

/-! ### Two requests that redeem the last use of a promo code -/

/-- In a table without two records of the same code, the lookup for a request that names the
code of an eligible record finds that record. -/
theorem promoCode_of_eligible (promo_codes : List (PromoCode α)) (now : Nat)
    (quoteRequest : QuoteRequest) (p : PromoCode α)
    (hcodes : (promo_codes.map fun r => r.code).Nodup) (hmem : p ∈ promo_codes)
    (hcode : quoteRequest.promo_code = some p.code) (hne : p.code ≠ "")
    (hactive : p.is_active = true) (hvalid : now ≤ p.valid_until) (huses : 0 < p.max_uses) :
    promoCode promo_codes now quoteRequest = some p := by
  have hfilter : (promo_codes.filter fun r =>
      r.code == p.code && r.is_active == true && decide (now ≤ r.valid_until)
        && decide (0 < r.max_uses)) = [p] := by
    apply filter_eq_singleton_of_nodup_key (fun r : PromoCode α => r.code) _ _ p hcodes hmem
    · simp [hactive, hvalid, huses]
    · intro r _ hr
      simp only [Bool.and_eq_true, beq_iff_eq, decide_eq_true_eq] at hr
      exact hr.1.1.1
  have htruthy : truthyStr p.code = true := by simpa [truthyStr] using hne
  simp only [promoCode, hcode, htruthy, if_true, promoCodeQuery, hfilter, single]

/-- Writing the usage update of a record a second time changes nothing: both writes set the
same value, the one that was read minus one. -/
theorem promoCodesUpdate_twice (promo_codes : List (PromoCode α)) (p : PromoCode α) :
    promoCodesUpdate (promoCodesUpdate promo_codes (some p)) (some p)
      = promoCodesUpdate promo_codes (some p) := by
  simp only [promoCodesUpdate, List.map_map]
  apply List.map_congr_left
  intro r _
  by_cases hid : r.id = p.id <;> simp [hid]

/-- In a table without two records of the same id, the usage update of a record of the table
changes that record only. -/
theorem promoCodesUpdate_eq_map (promo_codes : List (PromoCode α)) (p : PromoCode α)
    (hids : (promo_codes.map fun r => r.id).Nodup) (hmem : p ∈ promo_codes) :
    promoCodesUpdate promo_codes (some p)
      = promo_codes.map fun r => if r = p then { r with max_uses := p.max_uses - 1 } else r := by
  simp only [promoCodesUpdate]
  apply List.map_congr_left
  intro r hr
  by_cases hrp : r = p
  · subst hrp
    simp
  · have hidne : r.id ≠ p.id := fun hid => hrp (List.inj_on_of_nodup_map hids hr hmem hid)
    simp [hrp, hidne]

/-- After the usage update of a record that had one use left, in a table without two records
of the same code, the lookup for a request that names the code of the record finds nothing. -/
theorem promoCode_after_last_use (promo_codes : List (PromoCode α)) (now : Nat)
    (quoteRequest : QuoteRequest) (p : PromoCode α)
    (hcodes : (promo_codes.map fun r => r.code).Nodup) (hmem : p ∈ promo_codes)
    (hcode : quoteRequest.promo_code = some p.code) (huses : p.max_uses = 1) :
    promoCode (promoCodesUpdate promo_codes (some p)) now quoteRequest = none := by
  apply promoCode_eq_none
  intro r' hr' hcode' helig
  simp only [promoCodesUpdate, List.mem_map] at hr'
  obtain ⟨r, hr, hrr'⟩ := hr'
  have hsamecode : r'.code = r.code := by
    rw [← hrr']
    split <;> rfl
  have hrp : r = p := by
    apply List.inj_on_of_nodup_map hcodes hr hmem
    rw [hcode] at hcode'
    rw [← hsamecode]
    exact (Option.some.inj hcode').symm
  subst hrp
  have huses' : r'.max_uses = 0 := by
    rw [← hrr']
    simp [huses]
  omega

/-- Claim C13: the redemption is a lookup followed later by an update that writes the value
read minus one.  For two requests that name the code of a record that is eligible and has
one use left, in the schedule in which both lookups precede both updates each lookup finds
the record, so both requests get its promo discount, two redemptions where one use was
left, and the remaining uses of the record end at 0, every other record unchanged; in the
schedule in which the first request finishes before the second starts, the second lookup
finds nothing and there is one redemption. -/
theorem C13_lookup_then_update_race (promo_codes : List (PromoCode α)) (now : Nat)
    (first second : QuoteRequest) (p : PromoCode α)
    (hcodes : (promo_codes.map fun r => r.code).Nodup)
    (hids : (promo_codes.map fun r => r.id).Nodup) (hmem : p ∈ promo_codes)
    (hfirst : first.promo_code = some p.code) (hsecond : second.promo_code = some p.code)
    (hne : p.code ≠ "") (hactive : p.is_active = true) (hvalid : now ≤ p.valid_until)
    (huses : p.max_uses = 1) :
    promoBlockRun now [first, second] (promoBlockInitial promo_codes [first, second]) [0, 1]
      = { promo_codes := promo_codes, phases := [.looked (some p), .looked (some p)] } ∧
    promoBlockRun now [first, second] (promoBlockInitial promo_codes [first, second])
        [0, 1, 0, 1]
      = { promo_codes :=
            promo_codes.map fun r => if r = p then { r with max_uses := 0 } else r
          phases := [.finished (some p), .finished (some p)] } ∧
    (∀ totalFlight extras : α,
      ∀ phase ∈ (promoBlockRun now [first, second]
          (promoBlockInitial promo_codes [first, second]) [0, 1, 0, 1]).phases,
        promoDiscount phase.promoCode totalFlight extras
          = promoDiscount (some p) totalFlight extras) ∧
    redemptions (promoBlockRun now [first, second]
      (promoBlockInitial promo_codes [first, second]) [0, 1, 0, 1]) = 2 ∧
    p.max_uses < 2 ∧
    promoBlockRun now [first, second] (promoBlockInitial promo_codes [first, second])
        [0, 0, 1, 1]
      = { promo_codes :=
            promo_codes.map fun r => if r = p then { r with max_uses := 0 } else r
          phases := [.finished (some p), .finished none] } := by
  have h1 := promoCode_of_eligible promo_codes now first p hcodes hmem hfirst hne hactive hvalid
    (by omega)
  have h2 := promoCode_of_eligible promo_codes now second p hcodes hmem hsecond hne hactive
    hvalid (by omega)
  have hupdate : promoCodesUpdate promo_codes (some p)
      = promo_codes.map fun r => if r = p then { r with max_uses := 0 } else r := by
    rw [promoCodesUpdate_eq_map promo_codes p hids hmem, huses]
    rfl
  have hreads : promoBlockRun now [first, second]
      (promoBlockInitial promo_codes [first, second]) [0, 1]
      = { promo_codes := promo_codes
          phases := [.looked (promoCode promo_codes now first),
            .looked (promoCode promo_codes now second)] } := rfl
  have hrace : promoBlockRun now [first, second]
      (promoBlockInitial promo_codes [first, second]) [0, 1, 0, 1]
      = { promo_codes := promoCodesUpdate
            (promoCodesUpdate promo_codes (promoCode promo_codes now first))
            (promoCode promo_codes now second)
          phases := [.finished (promoCode promo_codes now first),
            .finished (promoCode promo_codes now second)] } := rfl
  have hseq : promoBlockRun now [first, second]
      (promoBlockInitial promo_codes [first, second]) [0, 0, 1, 1]
      = { promo_codes := promoCodesUpdate
            (promoCodesUpdate promo_codes (promoCode promo_codes now first))
            (promoCode (promoCodesUpdate promo_codes (promoCode promo_codes now first))
              now second)
          phases := [.finished (promoCode promo_codes now first),
            .finished (promoCode (promoCodesUpdate promo_codes
              (promoCode promo_codes now first)) now second)] } := rfl
  rw [h1, h2] at hreads
  rw [h1, h2, promoCodesUpdate_twice, hupdate] at hrace
  rw [h1, promoCode_after_last_use promo_codes now second p hcodes hmem hsecond huses,
    hupdate] at hseq
  refine ⟨hreads, hrace, ?_, ?_, by omega, hseq⟩
  · intro totalFlight extras phase hphase
    rw [hrace] at hphase
    simp only [List.mem_cons, List.mem_singleton, List.not_mem_nil, or_false] at hphase
    rcases hphase with rfl | rfl <;> rfl
  · rw [hrace]
    rfl

/-- Claim C13 on the sample store, whose code "SAVE10" has one use left: two requests with
that code both redeem it when their lookups precede their updates. -/
theorem C13_lookup_then_update_race_witness :
    (saveCode ℚ).max_uses = 1 ∧
    promoBlockRun 50 [saveRequest, saveRequest]
        (promoBlockInitial (sampleDb ℚ).promo_codes [saveRequest, saveRequest]) [0, 1, 0, 1]
      = { promo_codes :=
            [⟨7, "SAVE10", "percentage", 10, true, 100, 0⟩,
             ⟨8, "FLAT5000", "fixed", 5000, true, 100, 3⟩,
             ⟨9, "OLD", "fixed", 50, true, 10, 3⟩]
          phases := [.finished (some (saveCode ℚ)), .finished (some (saveCode ℚ))] } ∧
    redemptions (promoBlockRun 50 [saveRequest, saveRequest]
      (promoBlockInitial (sampleDb ℚ).promo_codes [saveRequest, saveRequest]) [0, 1, 0, 1])
      = 2 :=
  ⟨rfl, by decide,
    (C13_lookup_then_update_race (sampleDb ℚ).promo_codes 50 saveRequest saveRequest
      (saveCode ℚ) (by decide) (by decide) (by decide) rfl rfl (by decide) rfl (by decide)
      rfl).2.2.2.1⟩

end Properties

/-! ## Properties of the haversine distance and of the handler -/

section Haversine

open Real

/-- The haversine intermediate does not change when the two airports are exchanged. -/
theorem haversineA_comm (originAirport destinationAirport : Airport ℝ) :
    haversineA originAirport destinationAirport = haversineA destinationAirport originAirport := by
  simp only [haversineA]
  have h1 : (originAirport.latitude * π / 180 - destinationAirport.latitude * π / 180) / 2
      = -((destinationAirport.latitude * π / 180 - originAirport.latitude * π / 180) / 2) := by
    ring
  have h2 : (originAirport.longitude * π / 180 - destinationAirport.longitude * π / 180) / 2
      = -((destinationAirport.longitude * π / 180 - originAirport.longitude * π / 180) / 2) := by
    ring
  rw [h1, h2, Real.sin_neg, Real.sin_neg]
  ring

/-- Claim C8: the haversine distance computed from airport A to airport B equals the distance
computed from B to A, for all latitudes and longitudes over the real numbers. -/
theorem C8_distance_symmetric (originAirport destinationAirport : Airport ℝ) :
    distance originAirport destinationAirport = distance destinationAirport originAirport := by
  simp only [distance, haversineC, haversineA_comm originAirport destinationAirport]

/-- For two airports with the same coordinates the haversine intermediate is 0. -/
theorem haversineA_same (originAirport destinationAirport : Airport ℝ)
    (hlat : originAirport.latitude = destinationAirport.latitude)
    (hlon : originAirport.longitude = destinationAirport.longitude) :
    haversineA originAirport destinationAirport = 0 := by
  simp [haversineA, hlat, hlon]

/-- For two airports with the same coordinates the distance is 0. -/
theorem distance_same (originAirport destinationAirport : Airport ℝ)
    (hlat : originAirport.latitude = destinationAirport.latitude)
    (hlon : originAirport.longitude = destinationAirport.longitude) :
    distance originAirport destinationAirport = 0 := by
  have harg : Complex.arg ⟨1, 0⟩ = 0 := by
    have h1 : (⟨1, 0⟩ : ℂ) = 1 := rfl
    rw [h1, Complex.arg_one]
  simp [distance, haversineC, atan2, haversineA_same originAirport destinationAirport hlat hlon,
    harg]

/-- Claim C9: for two airports with identical latitude and longitude and an aircraft with
positive cruise speed, the computed distance is 0, the flight time is 0 and is displayed as
0 hours 0 minutes, and the billed flight cost is 0, for a one way trip and for a round trip
alike. -/
theorem C9_same_coordinates (originAirport destinationAirport : Airport ℝ)
    (selected : AircraftType ℝ)
    (hlat : originAirport.latitude = destinationAirport.latitude)
    (hlon : originAirport.longitude = destinationAirport.longitude)
    (hs : 0 < selected.cruise_speed_kmh) :
    distance originAirport destinationAirport = 0 ∧
    flightTimeHours (distance originAirport destinationAirport) selected = 0 ∧
    hours (flightTimeHours (distance originAirport destinationAirport) selected) = 0 ∧
    minutes (flightTimeHours (distance originAirport destinationAirport) selected) = 0 ∧
    flightCost (distance originAirport destinationAirport) selected = 0 ∧
    ∀ quoteRequest : QuoteRequest,
      totalFlightCost (distance originAirport destinationAirport) selected quoteRequest = 0 := by
  have _hs := hs
  have hd := distance_same originAirport destinationAirport hlat hlon
  have ht : flightTimeHours (distance originAirport destinationAirport) selected = 0 := by
    simp [flightTimeHours, hd]
  have hc : flightCost (distance originAirport destinationAirport) selected = 0 := by
    simp [flightCost, ht]
  refine ⟨hd, ht, ?_, ?_, hc, ?_⟩
  · simp [hours, ht]
  · simp [minutes, hours, ht]
  · intro quoteRequest
    simp [totalFlightCost, hc]

/-- The haversine intermediate is the half of `1 - sin lat1 * sin lat2 - cos lat1 * cos lat2 *
cos dLon`, and so lies between 0 and 1 for all coordinates. -/
theorem haversineA_mem_Icc (originAirport destinationAirport : Airport ℝ) :
    0 ≤ haversineA originAirport destinationAirport ∧
      haversineA originAirport destinationAirport ≤ 1 := by
  simp only [haversineA]
  set lat1 := originAirport.latitude * π / 180
  set lat2 := destinationAirport.latitude * π / 180
  set dLon := destinationAirport.longitude * π / 180 - originAirport.longitude * π / 180
  have e1 : sin ((lat2 - lat1) / 2) ^ 2 = 1 / 2 - (cos lat2 * cos lat1 + sin lat2 * sin lat1) / 2 := by
    rw [Real.sin_sq_eq_half_sub, ← Real.cos_sub]
    congr 3
    ring
  have e2 : sin (dLon / 2) ^ 2 = 1 / 2 - cos dLon / 2 := by
    rw [Real.sin_sq_eq_half_sub]
    congr 3
    ring
  have ha : sin ((lat2 - lat1) / 2) * sin ((lat2 - lat1) / 2)
      + cos lat1 * cos lat2 * sin (dLon / 2) * sin (dLon / 2)
      = (1 - sin lat1 * sin lat2 - cos lat1 * cos lat2 * cos dLon) / 2 := by
    have : sin ((lat2 - lat1) / 2) * sin ((lat2 - lat1) / 2)
        + cos lat1 * cos lat2 * sin (dLon / 2) * sin (dLon / 2)
        = sin ((lat2 - lat1) / 2) ^ 2 + cos lat1 * cos lat2 * sin (dLon / 2) ^ 2 := by ring
    rw [this, e1, e2]
    ring
  rw [ha]
  have h1 := Real.sin_sq_add_cos_sq lat1
  have h2 := Real.sin_sq_add_cos_sq lat2
  have hk : cos dLon ^ 2 ≤ 1 := Real.cos_sq_le_one dLon
  have hc2 : 0 ≤ cos lat2 ^ 2 * (1 - cos dLon ^ 2) :=
    mul_nonneg (sq_nonneg _) (by linarith)
  constructor
  · nlinarith [sq_nonneg (sin lat1 - sin lat2), sq_nonneg (cos lat1 - cos dLon * cos lat2)]
  · nlinarith [sq_nonneg (sin lat1 + sin lat2), sq_nonneg (cos lat1 + cos dLon * cos lat2)]

/-- The distance is never negative. -/
theorem distance_nonneg (originAirport destinationAirport : Airport ℝ) :
    0 ≤ distance originAirport destinationAirport := by
  have harg : 0 ≤ atan2 (√(haversineA originAirport destinationAirport))
      (√(1 - haversineA originAirport destinationAirport)) := by
    unfold atan2
    rw [Complex.arg_nonneg_iff]
    exact Real.sqrt_nonneg _
  have hR : (0 : ℝ) ≤ (EARTH_RADIUS_KM : ℝ) := Nat.cast_nonneg _
  unfold distance haversineC
  positivity

/-- Claim C9 on two airports at latitude 10 and longitude 20 and the light jet. -/
theorem C9_same_coordinates_witness :
    distance ⟨1, "AAA", 10, 20⟩ ⟨2, "BBB", 10, 20⟩ = 0 ∧
    totalFlightCost (distance ⟨1, "AAA", 10, 20⟩ ⟨2, "BBB", 10, 20⟩) (lightJet ℝ)
      { sampleRequest with return_date := some "2025-01-08" } = 0 :=
  ⟨(C9_same_coordinates ⟨1, "AAA", 10, 20⟩ ⟨2, "BBB", 10, 20⟩ (lightJet ℝ) rfl rfl
      (by norm_num [lightJet])).1,
    (C9_same_coordinates ⟨1, "AAA", 10, 20⟩ ⟨2, "BBB", 10, 20⟩ (lightJet ℝ) rfl rfl
      (by norm_num [lightJet])).2.2.2.2.2 _⟩

/-- A request that passes the validation and whose two airports are found is answered by the
pipeline at the haversine distance of the two airports. -/
theorem handler_eq_computeQuote (db : Database ℝ) (now : Nat) (quoteRequest : QuoteRequest)
    (originAirport destinationAirport : Airport ℝ)
    (hvalid : missingRequiredFields quoteRequest = false)
    (horigin : single (db.airports.filter fun p => p.id == quoteRequest.origin_id)
      = some originAirport)
    (hdestination : single (db.airports.filter fun p => p.id == quoteRequest.destination_id)
      = some destinationAirport) :
    handler db now quoteRequest =
      ((computeQuote db now quoteRequest originAirport destinationAirport
          (distance originAirport destinationAirport)).1,
        { db with promo_codes :=
            (computeQuote db now quoteRequest originAirport destinationAirport
              (distance originAirport destinationAirport)).2 }) := by
  unfold handler
  simp only [hvalid, horigin, hdestination, Bool.false_eq_true, if_false]

/-- Every quote of the handler is a quote of the pipeline, for the two airports of the request
and the haversine distance between them, and the handler writes nothing but the promo code
table the pipeline leaves. -/
theorem handler_ok (db : Database ℝ) (now : Nat) (quoteRequest : QuoteRequest) (q : Quote ℝ)
    (db' : Database ℝ) (h : handler db now quoteRequest = (.ok q, db')) :
    ∃ originAirport destinationAirport : Airport ℝ,
      missingRequiredFields quoteRequest = false ∧
      single (db.airports.filter fun p => p.id == quoteRequest.origin_id) = some originAirport ∧
      single (db.airports.filter fun p => p.id == quoteRequest.destination_id)
        = some destinationAirport ∧
      computeQuote db now quoteRequest originAirport destinationAirport
        (distance originAirport destinationAirport) = (.ok q, db'.promo_codes) ∧
      db' = { db with promo_codes := db'.promo_codes } := by
  unfold handler at h
  split at h
  · simp at h
  · rename_i hvalid
    split at h
    · rename_i originAirport destinationAirport horigin hdestination
      simp only [Prod.mk.injEq] at h
      obtain ⟨h1, h2⟩ := h
      refine ⟨originAirport, destinationAirport, by simpa using hvalid, horigin, hdestination,
        ?_, ?_⟩
      · rw [← h2]
        exact Prod.ext h1 rfl
      · rw [← h2]
    · simp at h

/-- Claim C4 as stated fails for the id 0: the request asks for the aircraft type with id 0,
the catalog holds an aircraft type with that id, and yet the handler applies the suitability
filter: for six passengers it quotes the heavy jet instead, and for twenty passengers it
answers with the 404 error for no suitable aircraft. -/
theorem C4_counterexample :
    zeroIdRequest.aircraft_type_id = some 0 ∧
    (⟨0, "Turboprop", "light", 4, 1500, 500, 2000⟩ : AircraftType ℝ)
      ∈ (zeroIdDb ℝ).aircraft_types ∧
    (∃ (q : Quote ℝ) (db' : Database ℝ),
      handler (zeroIdDb ℝ) 50 zeroIdRequest = (.ok q, db') ∧
      q.aircraft = ⟨1, "Heavy jet", "heavy", 12, 5000, 800, 9000⟩) ∧
    handler (zeroIdDb ℝ) 50 { zeroIdRequest with passengers := 20 }
      = (.error 404 "No suitable aircraft found for this journey", zeroIdDb ℝ) := by
  refine ⟨rfl, by simp [zeroIdDb], ?_, ?_⟩
  · have hfound : aircraft (zeroIdDb ℝ).aircraft_types
        (distance (sampleOrigin ℝ) (sampleOrigin ℝ)) zeroIdRequest
        = .rows [⟨1, "Heavy jet", "heavy", 12, 5000, 800, 9000⟩] := by
      rw [distance_same _ _ rfl rfl]
      simp [aircraft, zeroIdRequest, sampleRequest, truthyOptNum, truthyNum, aircraftQuery,
        zeroIdDb]
    obtain ⟨q, hq, hqa⟩ := computeQuote_of_selected (zeroIdDb ℝ) 50 zeroIdRequest
      (sampleOrigin ℝ) (sampleOrigin ℝ) (distance (sampleOrigin ℝ) (sampleOrigin ℝ))
      ⟨1, "Heavy jet", "heavy", 12, 5000, 800, 9000⟩
      (by rw [hfound]; rfl) (by rw [hfound]; rfl)
    have hhandler := handler_eq_computeQuote (zeroIdDb ℝ) 50 zeroIdRequest
      (sampleOrigin ℝ) (sampleOrigin ℝ) rfl rfl rfl
    rw [hq] at hhandler
    exact ⟨q, _, hhandler, hqa⟩
  · have hnone : ¬ ∃ t ∈ (zeroIdDb ℝ).aircraft_types,
        distance (sampleOrigin ℝ) (sampleOrigin ℝ) ≤ t.range_km ∧
          ({ zeroIdRequest with passengers := 20 } : QuoteRequest).passengers
            ≤ t.max_passengers := by
      rintro ⟨t, ht, -, hp⟩
      simp only [zeroIdDb, List.mem_cons, List.mem_singleton, List.not_mem_nil, or_false] at ht
      rcases ht with rfl | rfl <;> exact absurd hp (by decide)
    rw [handler_eq_computeQuote (zeroIdDb ℝ) 50 { zeroIdRequest with passengers := 20 }
        (sampleOrigin ℝ) (sampleOrigin ℝ) rfl rfl rfl,
      computeQuote_of_no_suitable (zeroIdDb ℝ) 50 { zeroIdRequest with passengers := 20 }
        (sampleOrigin ℝ) (sampleOrigin ℝ) (distance (sampleOrigin ℝ) (sampleOrigin ℝ)) rfl
        hnone]

/-- Claim C7 as stated fails for a request that is refused before the promo code is looked
at: the request names the code "FLAT5000", whose record is active, valid and has three uses
left, no aircraft type carries its twenty passengers, and the handler answers with the 404
error and leaves the data store, the record with its three uses included, unchanged. -/
theorem C7_counterexample :
    tooManyPassengersRequest.promo_code = some (flatCode ℝ).code ∧
    flatCode ℝ ∈ (sampleDb ℝ).promo_codes ∧
    (flatCode ℝ).is_active = true ∧ 50 ≤ (flatCode ℝ).valid_until ∧
    0 < (flatCode ℝ).max_uses ∧
    handler (sampleDb ℝ) 50 tooManyPassengersRequest
      = (.error 404 "No suitable aircraft found for this journey", sampleDb ℝ) := by
  refine ⟨rfl, by simp [sampleDb, flatCode], rfl, by decide, by decide, ?_⟩
  have hnone : ¬ ∃ t ∈ (sampleDb ℝ).aircraft_types,
      distance (sampleOrigin ℝ) (sampleOrigin ℝ) ≤ t.range_km ∧
        tooManyPassengersRequest.passengers ≤ t.max_passengers := by
    rintro ⟨t, ht, -, hp⟩
    simp only [sampleDb, List.mem_cons, List.mem_singleton, List.not_mem_nil, or_false] at ht
    rcases ht with rfl | rfl | rfl <;> exact absurd hp (by decide)
  rw [handler_eq_computeQuote (sampleDb ℝ) 50 tooManyPassengersRequest
      (sampleOrigin ℝ) (sampleOrigin ℝ) rfl rfl rfl,
    computeQuote_of_no_suitable (sampleDb ℝ) 50 tooManyPassengersRequest
      (sampleOrigin ℝ) (sampleOrigin ℝ) (distance (sampleOrigin ℝ) (sampleOrigin ℝ)) rfl hnone]

/-- Claim C10 (the case the code misses), on the sample store, whose reference data fulfil
the conditions of the claim: the handler answers the request with the tier string
"constructor" by a quote whose subscription discount amount is `NaN`, so it is not a number
that is at least 0. -/
theorem C10_inherited_name_amount_is_not_a_number :
    (∀ p ∈ (sampleDb ℝ).airports, -90 ≤ p.latitude ∧ p.latitude ≤ 90) ∧
    (∀ t ∈ (sampleDb ℝ).aircraft_types, 0 < t.cruise_speed_kmh ∧ 0 ≤ t.hourly_rate) ∧
    (∀ e ∈ (sampleDb ℝ).extras, 0 ≤ e.price) ∧
    (∀ p ∈ (sampleDb ℝ).promo_codes, 0 ≤ p.discount_value) ∧
    ∃ (q : Quote ℝ) (db' : Database ℝ),
      handler (sampleDb ℝ) 50 constructorRequest = (.ok q, db') ∧
      q.pricing.subscription_discount.amount = none ∧
      ¬ ∃ amount : ℝ, q.pricing.subscription_discount.amount = some amount ∧ 0 ≤ amount := by
  refine ⟨?_, ?_, ?_, ?_, ?_⟩
  · intro p hp
    simp only [sampleDb, List.mem_cons, List.mem_singleton, List.not_mem_nil, or_false] at hp
    rcases hp with rfl | rfl <;> norm_num
  · intro t ht
    simp only [sampleDb, List.mem_cons, List.mem_singleton, List.not_mem_nil, or_false] at ht
    rcases ht with rfl | rfl | rfl <;> norm_num
  · intro e he
    simp only [sampleDb, List.mem_cons, List.mem_singleton, List.not_mem_nil, or_false] at he
    rcases he with rfl | rfl <;> norm_num
  · intro p hp
    simp only [sampleDb, List.mem_cons, List.mem_singleton, List.not_mem_nil, or_false] at hp
    rcases hp with rfl | rfl | rfl <;> norm_num
  · have hfound : aircraft (sampleDb ℝ).aircraft_types
        (distance (sampleOrigin ℝ) (sampleDestination ℝ)) constructorRequest
        = .row (lightJet ℝ) := rfl
    obtain ⟨q, hq, -⟩ := computeQuote_of_selected (sampleDb ℝ) 50 constructorRequest
      (sampleOrigin ℝ) (sampleDestination ℝ) (distance (sampleOrigin ℝ) (sampleDestination ℝ))
      (lightJet ℝ) (by rw [hfound]; rfl) (by rw [hfound]; rfl)
    have hhandler := handler_eq_computeQuote (sampleDb ℝ) 50 constructorRequest
      (sampleOrigin ℝ) (sampleDestination ℝ) rfl rfl rfl
    rw [hq] at hhandler
    obtain ⟨-, -, hp, -, -⟩ := computeQuote_eq_ok hq
    have hamount : q.pricing.subscription_discount.amount = none := by
      rw [hp]
      exact (subscriptionDiscount_of_inherited_name constructorRequest
        (totalFlightCost (distance (sampleOrigin ℝ) (sampleDestination ℝ)) q.aircraft
          constructorRequest)
        (extrasCost (sampleDb ℝ).extras constructorRequest) (by decide)).2
    refine ⟨q, _, hhandler, hamount, ?_⟩
    rintro ⟨amount, hsome, -⟩
    rw [hamount] at hsome
    exact Option.noConfusion hsome

/-! ### The distance along the equator -/

/-- For an angle `x` between 0 and `π / 2`, `Math.atan2(sin x, cos x)` is `x`. -/
theorem atan2_sin_cos (x : ℝ) (h0 : 0 ≤ x) (h1 : x ≤ π / 2) : atan2 (sin x) (cos x) = x := by
  unfold atan2
  have hre : 0 ≤ (⟨cos x, sin x⟩ : ℂ).re :=
    Real.cos_nonneg_of_neg_pi_div_two_le_of_le (by linarith [Real.pi_pos]) h1
  have habs : Complex.abs ⟨cos x, sin x⟩ = 1 := by
    rw [Complex.abs_apply, Complex.normSq_mk]
    have hone : cos x * cos x + sin x * sin x = 1 := by
      nlinarith [Real.sin_sq_add_cos_sq x]
    rw [hone, Real.sqrt_one]
  rw [Complex.arg_of_re_nonneg hre, habs, div_one]
  exact Real.arcsin_sin (by linarith [Real.pi_pos]) h1

/-- Between two airports on the equator whose longitudes differ by at most 180 degrees, the
distance is the Earth radius times the difference of the longitudes in radians. -/
theorem distance_equator (originAirport destinationAirport : Airport ℝ)
    (horigin : originAirport.latitude = 0) (hdestination : destinationAirport.latitude = 0)
    (hdiff : |destinationAirport.longitude - originAirport.longitude| ≤ 180) :
    distance originAirport destinationAirport
      = 6371 * π * |destinationAirport.longitude - originAirport.longitude| / 180 := by
  have hpi := Real.pi_pos
  have hy0 : 0 ≤ |destinationAirport.longitude - originAirport.longitude| * π / 360 := by
    positivity
  have hy1 : |destinationAirport.longitude - originAirport.longitude| * π / 360 ≤ π / 2 := by
    have := mul_le_mul_of_nonneg_right hdiff hpi.le
    linarith
  have hA : haversineA originAirport destinationAirport
      = sin (|destinationAirport.longitude - originAirport.longitude| * π / 360) ^ 2 := by
    simp only [haversineA, horigin, hdestination, zero_mul, zero_div, sub_zero, Real.sin_zero,
      Real.cos_zero, mul_zero, zero_add, one_mul]
    rcases abs_cases (destinationAirport.longitude - originAirport.longitude) with
      ⟨habs, -⟩ | ⟨habs, -⟩
    · have harg : (destinationAirport.longitude * π / 180
          - originAirport.longitude * π / 180) / 2
          = |destinationAirport.longitude - originAirport.longitude| * π / 360 := by
        rw [habs]; ring
      rw [harg]; ring
    · have harg : (destinationAirport.longitude * π / 180
          - originAirport.longitude * π / 180) / 2
          = -(|destinationAirport.longitude - originAirport.longitude| * π / 360) := by
        rw [habs]; ring
      rw [harg, Real.sin_neg]; ring
  have hsin : √(haversineA originAirport destinationAirport)
      = sin (|destinationAirport.longitude - originAirport.longitude| * π / 360) := by
    rw [hA]
    exact Real.sqrt_sq (Real.sin_nonneg_of_nonneg_of_le_pi hy0 (by linarith))
  have hcos : √(1 - haversineA originAirport destinationAirport)
      = cos (|destinationAirport.longitude - originAirport.longitude| * π / 360) := by
    rw [hA]
    have h1 : 1 - sin (|destinationAirport.longitude - originAirport.longitude| * π / 360) ^ 2
        = cos (|destinationAirport.longitude - originAirport.longitude| * π / 360) ^ 2 := by
      rw [Real.cos_sq']
    rw [h1]
    exact Real.sqrt_sq (Real.cos_nonneg_of_neg_pi_div_two_le_of_le (by linarith) hy1)
  have hR : (EARTH_RADIUS_KM : ℝ) = 6371 := by norm_num [EARTH_RADIUS_KM]
  rw [distance, haversineC, hsin, hcos, atan2_sin_cos _ hy0 hy1, hR]
  ring

/-- Claim C11: for two airports at latitude 0 whose longitudes differ by `d` degrees, with
the absolute value of `d` at most 180, the computed distance is `6371 * π * |d| / 180` km;
in particular from (0, 0) to (0, 1) the distance lies strictly between 111.19 and 111.20 km,
and at a cruise speed of 500 km/h the flight is displayed as 0 hours 13 minutes and is
billed as 0.5 hours. -/
theorem C11_equator_distance (originAirport destinationAirport : Airport ℝ)
    (horigin : originAirport.latitude = 0) (hdestination : destinationAirport.latitude = 0)
    (hdiff : |destinationAirport.longitude - originAirport.longitude| ≤ 180) :
    distance originAirport destinationAirport
      = 6371 * π * |destinationAirport.longitude - originAirport.longitude| / 180 ∧
    (originAirport.longitude = 0 → destinationAirport.longitude = 1 →
      111.19 < distance originAirport destinationAirport ∧
      distance originAirport destinationAirport < 111.20 ∧
      ∀ selected : AircraftType ℝ, selected.cruise_speed_kmh = 500 →
        hours (flightTimeHours (distance originAirport destinationAirport) selected) = 0 ∧
        minutes (flightTimeHours (distance originAirport destinationAirport) selected) = 13 ∧
        (⌈flightTimeHours (distance originAirport destinationAirport) selected * 2⌉ : ℝ) / 2
          = 1 / 2 ∧
        flightCost (distance originAirport destinationAirport) selected
          = selected.hourly_rate * (1 / 2)) := by
  have hdist := distance_equator originAirport destinationAirport horigin hdestination hdiff
  refine ⟨hdist, ?_⟩
  intro hlon1 hlon2
  have hval : distance originAirport destinationAirport = 6371 * π / 180 := by
    rw [hdist, hlon1, hlon2]
    norm_num
  have hlow : 111.19 < distance originAirport destinationAirport := by
    rw [hval]
    have := Real.pi_gt_d4
    norm_num at this ⊢
    linarith
  have hhigh : distance originAirport destinationAirport < 111.20 := by
    rw [hval]
    have := Real.pi_lt_d4
    norm_num at this ⊢
    linarith
  refine ⟨hlow, hhigh, ?_⟩
  intro selected hspeed
  have ht : flightTimeHours (distance originAirport destinationAirport) selected
      = distance originAirport destinationAirport / 500 := by
    rw [flightTimeHours, hspeed]
  have hhours : hours (flightTimeHours (distance originAirport destinationAirport) selected)
      = 0 := by
    rw [ht, hours, Int.floor_eq_iff]
    norm_num at hlow hhigh ⊢
    constructor <;> linarith
  have hceil : ⌈flightTimeHours (distance originAirport destinationAirport) selected * 2⌉
      = 1 := by
    rw [ht, Int.ceil_eq_iff]
    norm_num at hlow hhigh ⊢
    constructor <;> linarith
  refine ⟨hhours, ?_, ?_, ?_⟩
  · rw [minutes, hhours, ht, Int.floor_eq_iff]
    norm_num at hlow hhigh ⊢
    constructor <;> linarith
  · rw [hceil]
    norm_num
  · rw [flightCost, hceil]
    norm_num

/-- Claim C11 on the two airports of the sample store, at (0, 0) and (0, 1). -/
theorem C11_equator_distance_witness :
    (sampleOrigin ℝ).latitude = 0 ∧ (sampleDestination ℝ).latitude = 0 ∧
    |(sampleDestination ℝ).longitude - (sampleOrigin ℝ).longitude| ≤ 180 ∧
    111.19 < distance (sampleOrigin ℝ) (sampleDestination ℝ) ∧
    distance (sampleOrigin ℝ) (sampleDestination ℝ) < 111.20 :=
  ⟨rfl, rfl, by norm_num [sampleOrigin, sampleDestination],
    ((C11_equator_distance (sampleOrigin ℝ) (sampleDestination ℝ) rfl rfl
      (by norm_num [sampleOrigin, sampleDestination])).2 rfl rfl).1,
    ((C11_equator_distance (sampleOrigin ℝ) (sampleDestination ℝ) rfl rfl
      (by norm_num [sampleOrigin, sampleDestination])).2 rfl rfl).2.1⟩

end Haversine

/-! ## Properties of the rounding to doubles -/

section Rounding

theorem doubleExponent_ge (x : ℚ) : -1022 ≤ doubleExponent x := by
  unfold doubleExponent
  split
  · exact le_refl _
  · exact le_max_right _ _

theorem doubleUlp_pos (x : ℚ) : 0 < doubleUlp x := by
  unfold doubleUlp
  positivity

theorem abs_lt_zpow_doubleExponent (x : ℚ) : |x| < (2 : ℚ) ^ (doubleExponent x + 1) := by
  unfold doubleExponent
  split
  · rename_i h
    rw [h, abs_zero]
    positivity
  · have h1 : |x| < ((2 : ℕ) : ℚ) ^ (Int.log 2 |x| + 1) := Int.lt_zpow_succ_log_self (by norm_num) |x|
    have h2 : ((2 : ℕ) : ℚ) ^ (Int.log 2 |x| + 1) ≤ ((2 : ℕ) : ℚ) ^ (max (Int.log 2 |x|) (-1022) + 1) :=
      zpow_le_zpow_right₀ (by norm_num) (by have := le_max_left (Int.log 2 |x|) (-1022); omega)
    calc |x| < ((2 : ℕ) : ℚ) ^ (Int.log 2 |x| + 1) := h1
      _ ≤ ((2 : ℕ) : ℚ) ^ (max (Int.log 2 |x|) (-1022) + 1) := h2
      _ = (2 : ℚ) ^ (max (Int.log 2 |x|) (-1022) + 1) := by norm_num

theorem floor_le_roundHalfEven (y : ℚ) : ⌊y⌋ ≤ roundHalfEven y := by
  unfold roundHalfEven
  split_ifs <;> omega

theorem roundHalfEven_le_floor_add_one (y : ℚ) : roundHalfEven y ≤ ⌊y⌋ + 1 := by
  unfold roundHalfEven
  split_ifs <;> omega

/-- The nearest integer is within one half. -/
theorem abs_roundHalfEven_sub_le (y : ℚ) : |(roundHalfEven y : ℚ) - y| ≤ 1 / 2 := by
  have h0 := Int.floor_le y
  have h1 := Int.lt_floor_add_one y
  unfold roundHalfEven
  rw [abs_le]
  split_ifs with ha hb hc
  · constructor <;> linarith
  · push_cast; constructor <;> linarith
  · have : y - ⌊y⌋ = 1 / 2 := le_antisymm (not_lt.mp hb) (not_lt.mp ha)
    constructor <;> linarith
  · have : y - ⌊y⌋ = 1 / 2 := le_antisymm (not_lt.mp hb) (not_lt.mp ha)
    push_cast; constructor <;> linarith

/-- An integer is its own nearest integer. -/
theorem roundHalfEven_intCast (n : ℤ) : roundHalfEven (n : ℚ) = n := by
  unfold roundHalfEven
  simp

/-- The nearest integer does not pass an integer above. -/
theorem roundHalfEven_le_of_le (y : ℚ) (n : ℤ) (h : y ≤ n) : roundHalfEven y ≤ n := by
  have hd := abs_roundHalfEven_sub_le y
  rw [abs_le] at hd
  have : (roundHalfEven y : ℚ) < n + 1 := by linarith
  have : roundHalfEven y < n + 1 := by exact_mod_cast this
  omega

/-- The nearest integer does not pass an integer below. -/
theorem le_roundHalfEven_of_le (y : ℚ) (n : ℤ) (h : (n : ℚ) ≤ y) : n ≤ roundHalfEven y := by
  have hd := abs_roundHalfEven_sub_le y
  rw [abs_le] at hd
  have : (n : ℚ) - 1 < roundHalfEven y := by linarith
  have : n - 1 < roundHalfEven y := by exact_mod_cast this
  omega

/-- The exponent of a number in a binade at or above the lowest normal one. -/
theorem doubleExponent_eq_of_mem (x : ℚ) (e : ℤ) (he : -1022 ≤ e) (h1 : (2 : ℚ) ^ e ≤ |x|)
    (h2 : |x| < (2 : ℚ) ^ (e + 1)) : doubleExponent x = e := by
  have hpos : 0 < |x| := lt_of_lt_of_le (by positivity) h1
  have hx : x ≠ 0 := abs_pos.mp hpos
  have hlog : Int.log 2 |x| = e := by
    apply le_antisymm
    · have := (Int.lt_zpow_iff_log_lt (b := 2) (by norm_num) (x := e + 1) hpos).mp
        (by exact_mod_cast h2)
      omega
    · exact (Int.zpow_le_iff_le_log (b := 2) (by norm_num) hpos).mp (by exact_mod_cast h1)
  unfold doubleExponent
  rw [if_neg hx, hlog]
  exact max_eq_left he

/-- The exponent of a number below the lowest normal binade. -/
theorem doubleExponent_eq_of_lt (x : ℚ) (h : |x| < (2 : ℚ) ^ (-1022 : ℤ)) :
    doubleExponent x = -1022 := by
  unfold doubleExponent
  split
  · rfl
  · rename_i hx
    have hpos : 0 < |x| := abs_pos.mpr hx
    have := (Int.lt_zpow_iff_log_lt (b := 2) (by norm_num) (x := -1022) hpos).mp
      (by exact_mod_cast h)
    exact max_eq_right (by omega)

/-- A number at or above the lowest normal binade is at least the power of two of its
exponent. -/
theorem zpow_doubleExponent_le (x : ℚ) (h : (2 : ℚ) ^ (-1022 : ℤ) ≤ |x|) :
    (2 : ℚ) ^ doubleExponent x ≤ |x| := by
  have hpos : 0 < |x| := lt_of_lt_of_le (by positivity) h
  have hx : x ≠ 0 := abs_pos.mp hpos
  have hlog : -1022 ≤ Int.log 2 |x| :=
    (Int.zpow_le_iff_le_log (b := 2) (by norm_num) hpos).mp (by exact_mod_cast h)
  unfold doubleExponent
  rw [if_neg hx, max_eq_left hlog]
  have := Int.zpow_log_le_self (b := 2) (r := |x|) (by norm_num) hpos
  exact_mod_cast this

/-- The exponent does not decrease with the magnitude. -/
theorem doubleExponent_mono (x y : ℚ) (h : |x| ≤ |y|) : doubleExponent x ≤ doubleExponent y := by
  by_cases hx : x = 0
  · rw [show doubleExponent x = -1022 by simp [doubleExponent, hx]]
    exact doubleExponent_ge y
  · have hpos : 0 < |x| := abs_pos.mpr hx
    have hy : y ≠ 0 := abs_pos.mp (lt_of_lt_of_le hpos h)
    unfold doubleExponent
    rw [if_neg hx, if_neg hy]
    exact max_le_max (Int.log_mono_right hpos h) (le_refl _)

/-- A number above the lowest normal exponent is at least the power of two of its exponent. -/
theorem zpow_doubleExponent_le_of_lt (x : ℚ) (h : -1022 < doubleExponent x) :
    (2 : ℚ) ^ doubleExponent x ≤ |x| := by
  apply zpow_doubleExponent_le
  by_contra hlt
  have := doubleExponent_eq_of_lt x (not_le.mp hlt)
  omega

/-- A number below `2 ^ (k + 1)` has an exponent of at most `k`. -/
theorem doubleExponent_le_of_lt (x : ℚ) (k : ℤ) (hk : -1022 ≤ k) (h : |x| < (2 : ℚ) ^ (k + 1)) :
    doubleExponent x ≤ k := by
  by_contra hgt
  have hgt : k < doubleExponent x := not_le.mp hgt
  have h1 := zpow_doubleExponent_le_of_lt x (by omega)
  have h2 : (2 : ℚ) ^ (k + 1) ≤ (2 : ℚ) ^ doubleExponent x :=
    zpow_le_zpow_right₀ (by norm_num) (by omega)
  linarith

/-- The error of the nearest double is at most half the spacing. -/
theorem abs_roundDouble_sub_le (x : ℚ) : |roundDouble x - x| ≤ doubleUlp x / 2 := by
  have hq := doubleUlp_pos x
  have h := abs_roundHalfEven_sub_le (x / doubleUlp x)
  have e : roundDouble x - x = ((roundHalfEven (x / doubleUlp x) : ℚ) - x / doubleUlp x) * doubleUlp x := by
    unfold roundDouble
    field_simp
  rw [e, abs_mul, abs_of_pos hq]
  nlinarith

/-- A number on the grid of its own binade is a double. -/
theorem roundDouble_eq_self_of_mul_ulp (x : ℚ) (M : ℤ) (h : x = M * doubleUlp x) :
    roundDouble x = x := by
  have hq := doubleUlp_pos x
  have hdiv : x / doubleUlp x = (M : ℚ) := (div_eq_iff hq.ne').mpr h
  unfold roundDouble
  rw [hdiv, roundHalfEven_intCast]
  exact h.symm

/-- An integer of less than 54 bits times a power of two that is at least `2 ^ (-1074)` is a
double. -/
theorem roundDouble_eq_self_of_lt (N c : ℤ) (hc : -1074 ≤ c) (hN : |N| < 2 ^ 53) :
    roundDouble ((N : ℚ) * (2 : ℚ) ^ c) = (N : ℚ) * (2 : ℚ) ^ c := by
  have hNq : |(N : ℚ)| < 2 ^ 53 := by exact_mod_cast hN
  have habs : |(N : ℚ) * (2 : ℚ) ^ c| < (2 : ℚ) ^ (c + 52 + 1) := by
    rw [abs_mul, abs_of_pos (show (0 : ℚ) < 2 ^ c by positivity),
      show c + 52 + 1 = 53 + c by ring, zpow_add₀ (by norm_num : (2 : ℚ) ≠ 0)]
    have : (0 : ℚ) < 2 ^ c := by positivity
    have h53 : ((2 : ℚ) ^ (53 : ℤ)) = 2 ^ 53 := by norm_num
    rw [h53]
    exact mul_lt_mul_of_pos_right hNq this
  have hle := doubleExponent_le_of_lt _ (c + 52) (by omega) habs
  obtain ⟨k, hk⟩ : ∃ k : ℕ, (k : ℤ) = c - doubleExponent ((N : ℚ) * (2 : ℚ) ^ c) + 52 :=
    ⟨(c - doubleExponent ((N : ℚ) * (2 : ℚ) ^ c) + 52).toNat, Int.toNat_of_nonneg (by omega)⟩
  apply roundDouble_eq_self_of_mul_ulp _ (N * 2 ^ k)
  unfold doubleUlp
  have hsplit : (2 : ℚ) ^ c
      = (2 : ℚ) ^ (k : ℤ) * (2 : ℚ) ^ (doubleExponent ((N : ℚ) * (2 : ℚ) ^ c) - 52) := by
    rw [← zpow_add₀ (by norm_num : (2 : ℚ) ≠ 0)]
    congr 1
    omega
  push_cast
  rw [zpow_natCast] at hsplit
  nth_rewrite 1 [hsplit]
  ring

/-- An integer of at most 54 bits times a power of two that is at least `2 ^ (-1074)` is a
double, the magnitude `2 ^ 53` included. -/
theorem roundDouble_eq_self_of_le (N c : ℤ) (hc : -1074 ≤ c) (hN : |N| ≤ 2 ^ 53) :
    roundDouble ((N : ℚ) * (2 : ℚ) ^ c) = (N : ℚ) * (2 : ℚ) ^ c := by
  rcases lt_or_eq_of_le hN with hlt | heq
  · exact roundDouble_eq_self_of_lt N c hc hlt
  · obtain ⟨N', hN'⟩ : ∃ N' : ℤ, N = 2 * N' := by
      rcases abs_cases N with ⟨h, -⟩ | ⟨h, -⟩
      · exact ⟨2 ^ 52, by omega⟩
      · exact ⟨-2 ^ 52, by omega⟩
    have hN'lt : |N'| < 2 ^ 53 := by
      rw [hN', abs_mul] at heq
      norm_num at heq
      omega
    have e : (N : ℚ) * (2 : ℚ) ^ c = (N' : ℚ) * (2 : ℚ) ^ (c + 1) := by
      rw [hN', zpow_add₀ (by norm_num : (2 : ℚ) ≠ 0)]
      push_cast
      ring
    rw [e]
    exact roundDouble_eq_self_of_lt N' (c + 1) (by omega) hN'lt

/-- The nearest double is an integer of at most 54 bits times the spacing of the binade. -/
theorem roundDouble_eq_mul_zpow (x : ℚ) :
    ∃ N : ℤ, roundDouble x = (N : ℚ) * (2 : ℚ) ^ (doubleExponent x - 52) ∧ |N| ≤ 2 ^ 53 ∧
      (0 ≤ x → 0 ≤ N) := by
  have hq := doubleUlp_pos x
  have hlt := abs_lt_zpow_doubleExponent x
  have hdiv : |x / doubleUlp x| < 2 ^ 53 := by
    rw [abs_div, abs_of_pos hq, div_lt_iff₀ hq]
    unfold doubleUlp
    have : (2 : ℚ) ^ 53 * (2 : ℚ) ^ (doubleExponent x - 52) = (2 : ℚ) ^ (doubleExponent x + 1) := by
      rw [show ((2 : ℚ) ^ 53) = (2 : ℚ) ^ (53 : ℤ) by norm_num,
        ← zpow_add₀ (by norm_num : (2 : ℚ) ≠ 0)]
      congr 1
      ring
    rw [this]
    exact hlt
  rw [abs_lt] at hdiv
  refine ⟨roundHalfEven (x / doubleUlp x), rfl, ?_, ?_⟩
  · rw [abs_le]
    constructor
    · exact le_roundHalfEven_of_le _ (-2 ^ 53) (by push_cast; linarith)
    · exact roundHalfEven_le_of_le _ (2 ^ 53) (by push_cast; linarith)
  · intro hx
    exact le_roundHalfEven_of_le _ 0 (by push_cast; exact div_nonneg hx hq.le)

/-- The nearest double is a double. -/
theorem roundDouble_roundDouble (x : ℚ) : roundDouble (roundDouble x) = roundDouble x := by
  obtain ⟨N, hN, hbound, -⟩ := roundDouble_eq_mul_zpow x
  rw [hN]
  exact roundDouble_eq_self_of_le N _ (by have := doubleExponent_ge x; omega) hbound

/-- Twice a double is a double: the product by 2 is exact. -/
theorem roundDouble_mul_two (x : ℚ) : roundDouble (roundDouble x * 2) = roundDouble x * 2 := by
  obtain ⟨N, hN, hbound, -⟩ := roundDouble_eq_mul_zpow x
  have e : roundDouble x * 2 = (N : ℚ) * (2 : ℚ) ^ (doubleExponent x - 52 + 1) := by
    rw [hN, zpow_add₀ (by norm_num : (2 : ℚ) ≠ 0)]
    ring
  rw [e]
  exact roundDouble_eq_self_of_le N _ (by have := doubleExponent_ge x; omega) hbound

/-- An integer of at most 54 bits is a double. -/
theorem roundDouble_intCast (n : ℤ) (hn : |n| ≤ 2 ^ 53) : roundDouble (n : ℚ) = n := by
  have := roundDouble_eq_self_of_le n 0 (by norm_num) hn
  simpa using this

/-- Half an integer of at most 54 bits is a double: the quotient by 2 is exact. -/
theorem roundDouble_intCast_div_two (n : ℤ) (hn : |n| ≤ 2 ^ 53) :
    roundDouble ((n : ℚ) / 2) = (n : ℚ) / 2 := by
  have := roundDouble_eq_self_of_le n (-1) (by norm_num) hn
  have e : (n : ℚ) * (2 : ℚ) ^ (-1 : ℤ) = (n : ℚ) / 2 := by
    rw [zpow_neg_one]; ring
  rwa [e] at this

/-- Rounding does not pass a double above: the nearest double of a number that is not
negative and at most the double `n` is at most `n`. -/
theorem roundDouble_le_of_le (x n : ℚ) (hx : 0 ≤ x) (h : x ≤ n) (hn : roundDouble n = n) :
    roundDouble x ≤ n := by
  have hq := doubleUlp_pos x
  obtain ⟨N, hN, -, -⟩ := roundDouble_eq_mul_zpow n
  rw [hn] at hN
  have hmono : doubleExponent x ≤ doubleExponent n :=
    doubleExponent_mono x n (by rw [abs_of_nonneg hx, abs_of_nonneg (le_trans hx h)]; exact h)
  obtain ⟨k, hk⟩ : ∃ k : ℕ, (k : ℤ) = doubleExponent n - doubleExponent x :=
    ⟨(doubleExponent n - doubleExponent x).toNat, Int.toNat_of_nonneg (by omega)⟩
  have hgrid : n = ((N * 2 ^ k : ℤ) : ℚ) * doubleUlp x := by
    unfold doubleUlp
    have hsplit : (2 : ℚ) ^ (doubleExponent n - 52)
        = (2 : ℚ) ^ (k : ℤ) * (2 : ℚ) ^ (doubleExponent x - 52) := by
      rw [← zpow_add₀ (by norm_num : (2 : ℚ) ≠ 0)]
      congr 1
      omega
    rw [zpow_natCast] at hsplit
    rw [hN, hsplit]
    push_cast
    ring
  have hdiv : x / doubleUlp x ≤ ((N * 2 ^ k : ℤ) : ℚ) := by
    rw [div_le_iff₀ hq, ← hgrid]
    exact h
  have hr := roundHalfEven_le_of_le _ _ hdiv
  have hr' : (roundHalfEven (x / doubleUlp x) : ℚ) ≤ ((N * 2 ^ k : ℤ) : ℚ) := by exact_mod_cast hr
  unfold roundDouble
  calc (roundHalfEven (x / doubleUlp x) : ℚ) * doubleUlp x
      ≤ ((N * 2 ^ k : ℤ) : ℚ) * doubleUlp x := mul_le_mul_of_nonneg_right hr' hq.le
    _ = n := hgrid.symm

/-- Rounding does not pass a double below: the nearest double of a number that is at least
the double `n`, itself not negative, is at least `n`. -/
theorem le_roundDouble_of_le (x n : ℚ) (hn0 : 0 ≤ n) (h : n ≤ x) (hn : roundDouble n = n) :
    n ≤ roundDouble x := by
  have hq := doubleUlp_pos x
  have hx0 : 0 ≤ x := le_trans hn0 h
  obtain ⟨N, hN, -, -⟩ := roundDouble_eq_mul_zpow n
  rw [hn] at hN
  have hmono : doubleExponent n ≤ doubleExponent x :=
    doubleExponent_mono n x (by rw [abs_of_nonneg hx0, abs_of_nonneg hn0]; exact h)
  rcases eq_or_lt_of_le hmono with heq | hlt
  · have hgrid : n = (N : ℚ) * doubleUlp x := by
      unfold doubleUlp
      rw [← heq]
      exact hN
    have hdiv : (N : ℚ) ≤ x / doubleUlp x := by
      rw [le_div_iff₀ hq, ← hgrid]
      exact h
    have hr := le_roundHalfEven_of_le _ _ hdiv
    have hr' : (N : ℚ) ≤ (roundHalfEven (x / doubleUlp x) : ℚ) := by exact_mod_cast hr
    unfold roundDouble
    calc n = (N : ℚ) * doubleUlp x := hgrid
      _ ≤ (roundHalfEven (x / doubleUlp x) : ℚ) * doubleUlp x :=
        mul_le_mul_of_nonneg_right hr' hq.le
  · have hbig := zpow_doubleExponent_le_of_lt x (by have := doubleExponent_ge n; omega)
    rw [abs_of_nonneg hx0] at hbig
    have hsmall := abs_lt_zpow_doubleExponent n
    rw [abs_of_nonneg hn0] at hsmall
    have hstep : (2 : ℚ) ^ (doubleExponent n + 1) ≤ (2 : ℚ) ^ doubleExponent x :=
      zpow_le_zpow_right₀ (by norm_num) (by omega)
    have hpow : (2 : ℚ) ^ doubleExponent x = ((2 ^ 52 : ℤ) : ℚ) * doubleUlp x := by
      unfold doubleUlp
      have h1 : (2 : ℚ) ^ doubleExponent x
          = (2 : ℚ) ^ (52 : ℤ) * (2 : ℚ) ^ (doubleExponent x - 52) := by
        rw [← zpow_add₀ (by norm_num : (2 : ℚ) ≠ 0)]
        congr 1
        ring
      rw [h1]
      norm_num
    have hdiv : ((2 ^ 52 : ℤ) : ℚ) ≤ x / doubleUlp x := by
      rw [le_div_iff₀ hq, ← hpow]
      exact hbig
    have hr := le_roundHalfEven_of_le _ _ hdiv
    have hr' : ((2 ^ 52 : ℤ) : ℚ) ≤ (roundHalfEven (x / doubleUlp x) : ℚ) := by exact_mod_cast hr
    unfold roundDouble
    calc n ≤ (2 : ℚ) ^ doubleExponent x := by linarith
      _ = ((2 ^ 52 : ℤ) : ℚ) * doubleUlp x := hpow
      _ ≤ (roundHalfEven (x / doubleUlp x) : ℚ) * doubleUlp x :=
        mul_le_mul_of_nonneg_right hr' hq.le

/-- The nearest double of a number that is not negative is not negative. -/
theorem roundDouble_nonneg (x : ℚ) (hx : 0 ≤ x) : 0 ≤ roundDouble x := by
  have h0 : roundDouble 0 = 0 := by
    have := roundDouble_intCast 0 (by norm_num)
    simpa using this
  exact le_roundDouble_of_le x 0 (le_refl 0) hx h0

/-- The fractional part of the nearest double of a number that is not negative is a double,
so the subtraction of the whole hours is exact, and it is at most `1 - 2 ^ (-53)`. -/
theorem roundDouble_sub_floor (x : ℚ) (hx : 0 ≤ x) :
    roundDouble (roundDouble x - (⌊roundDouble x⌋ : ℚ)) = roundDouble x - (⌊roundDouble x⌋ : ℚ) ∧
    roundDouble x - (⌊roundDouble x⌋ : ℚ) ≤ 1 - (2 : ℚ) ^ (-53 : ℤ) := by
  obtain ⟨N, hN, hbound, hNnonneg⟩ := roundDouble_eq_mul_zpow x
  have hN0 : 0 ≤ N := hNnonneg hx
  have hNle : N ≤ 2 ^ 53 := by
    rw [abs_of_nonneg hN0] at hbound
    exact hbound
  have hr0 : 0 ≤ roundDouble x := roundDouble_nonneg x hx
  have hfloor0 : 0 ≤ ⌊roundDouble x⌋ := Int.floor_nonneg.mpr hr0
  have hy0 : 0 ≤ roundDouble x - (⌊roundDouble x⌋ : ℚ) := by
    have := Int.floor_le (roundDouble x)
    linarith
  have hy1 : roundDouble x - (⌊roundDouble x⌋ : ℚ) < 1 := by
    have := Int.lt_floor_add_one (roundDouble x)
    linarith
  have hc := doubleExponent_ge x
  rcases le_or_lt 0 (doubleExponent x - 52) with hpos | hneg
  · -- the double is an integer
    obtain ⟨k, hk⟩ : ∃ k : ℕ, (k : ℤ) = doubleExponent x - 52 :=
      ⟨(doubleExponent x - 52).toNat, Int.toNat_of_nonneg hpos⟩
    have hint : roundDouble x = ((N * 2 ^ k : ℤ) : ℚ) := by
      rw [hN, ← hk, zpow_natCast]
      push_cast
      ring
    have hzero : roundDouble x - (⌊roundDouble x⌋ : ℚ) = 0 := by
      rw [hint, Int.floor_intCast]
      ring
    rw [hzero]
    refine ⟨?_, by norm_num⟩
    have := roundDouble_intCast 0 (by norm_num)
    simpa using this
  · -- the double has binary places
    obtain ⟨k, hk⟩ : ∃ k : ℕ, (k : ℤ) = -(doubleExponent x - 52) :=
      ⟨(-(doubleExponent x - 52)).toNat, Int.toNat_of_nonneg (by omega)⟩
    have hpow : (2 : ℚ) ^ (doubleExponent x - 52) * (2 : ℚ) ^ k = 1 := by
      rw [← zpow_natCast, hk, ← zpow_add₀ (by norm_num : (2 : ℚ) ≠ 0)]
      simp
    have hcpos : (0 : ℚ) < (2 : ℚ) ^ (doubleExponent x - 52) := by positivity
    -- the fractional part is an integer number of spacings
    have hgrid : roundDouble x - (⌊roundDouble x⌋ : ℚ)
        = ((N - ⌊roundDouble x⌋ * 2 ^ k : ℤ) : ℚ) * (2 : ℚ) ^ (doubleExponent x - 52) := by
      rw [hN]
      push_cast
      linear_combination (⌊(N : ℚ) * (2 : ℚ) ^ (doubleExponent x - 52)⌋ : ℚ) * hpow
    have hM0 : 0 ≤ N - ⌊roundDouble x⌋ * 2 ^ k := by
      have : (0 : ℚ) ≤ ((N - ⌊roundDouble x⌋ * 2 ^ k : ℤ) : ℚ) := by
        by_contra hcon
        have hcon : ((N - ⌊roundDouble x⌋ * 2 ^ k : ℤ) : ℚ) < 0 := not_le.mp hcon
        have := mul_neg_of_neg_of_pos hcon hcpos
        rw [← hgrid] at this
        linarith
      exact_mod_cast this
    have hMlt : N - ⌊roundDouble x⌋ * 2 ^ k < 2 ^ k := by
      have : ((N - ⌊roundDouble x⌋ * 2 ^ k : ℤ) : ℚ) < ((2 ^ k : ℤ) : ℚ) := by
        by_contra hcon
        have hcon : ((2 ^ k : ℤ) : ℚ) ≤ ((N - ⌊roundDouble x⌋ * 2 ^ k : ℤ) : ℚ) := not_lt.mp hcon
        have := mul_le_mul_of_nonneg_right hcon hcpos.le
        rw [← hgrid] at this
        push_cast at this
        rw [mul_comm, hpow] at this
        linarith
      exact_mod_cast this
    have hMle : N - ⌊roundDouble x⌋ * 2 ^ k ≤ N := by
      have : 0 ≤ ⌊roundDouble x⌋ * 2 ^ k := mul_nonneg hfloor0 (by positivity)
      omega
    constructor
    · rw [hgrid]
      exact roundDouble_eq_self_of_le _ _ (by omega) (by rw [abs_of_nonneg hM0]; omega)
    · rcases le_or_lt (-53) (doubleExponent x - 52) with hbig | hsmall
      · -- the spacing is at least `2 ^ (-53)`
        have hstep : ((N - ⌊roundDouble x⌋ * 2 ^ k : ℤ) : ℚ) ≤ ((2 ^ k : ℤ) : ℚ) - 1 := by
          have : N - ⌊roundDouble x⌋ * 2 ^ k ≤ 2 ^ k - 1 := by omega
          exact_mod_cast this
        have h1 := mul_le_mul_of_nonneg_right hstep hcpos.le
        rw [← hgrid, sub_mul, one_mul] at h1
        push_cast at h1
        rw [mul_comm, hpow] at h1
        have h2 : (2 : ℚ) ^ (-53 : ℤ) ≤ (2 : ℚ) ^ (doubleExponent x - 52) :=
          zpow_le_zpow_right₀ (by norm_num) hbig
        linarith
      · -- the double is at most one half
        have h1 : roundDouble x ≤ (2 : ℚ) ^ (53 : ℤ) * (2 : ℚ) ^ (-54 : ℤ) := by
          rw [hN]
          have hNq : (N : ℚ) ≤ (2 : ℚ) ^ (53 : ℤ) := by
            have : (N : ℚ) ≤ ((2 ^ 53 : ℤ) : ℚ) := by exact_mod_cast hNle
            norm_num at this ⊢
            exact this
          have h2 : (2 : ℚ) ^ (doubleExponent x - 52) ≤ (2 : ℚ) ^ (-54 : ℤ) :=
            zpow_le_zpow_right₀ (by norm_num) (by omega)
          exact mul_le_mul hNq h2 hcpos.le (by positivity)
        have h3 : (0 : ℚ) ≤ (⌊roundDouble x⌋ : ℚ) := by exact_mod_cast hfloor0
        have h4 : (2 : ℚ) ^ (53 : ℤ) * (2 : ℚ) ^ (-54 : ℤ) ≤ 1 - (2 : ℚ) ^ (-53 : ℤ) := by
          norm_num
        linarith

/-- Sixty times a double below 1 rounds to a double below 60. -/
theorem roundDouble_mul_sixty_lt (y : ℚ) (h0 : 0 ≤ y) (h1 : y ≤ 1 - (2 : ℚ) ^ (-53 : ℤ)) :
    roundDouble (y * 60) < 60 := by
  have hz0 : 0 ≤ y * 60 := by positivity
  have hz1 : y * 60 ≤ 60 - 60 * (2 : ℚ) ^ (-53 : ℤ) := by linarith
  have hexp : doubleExponent (y * 60) ≤ 5 := by
    apply doubleExponent_le_of_lt _ 5 (by norm_num)
    rw [abs_of_nonneg hz0]
    norm_num at hz1 ⊢
    linarith
  have hulp : doubleUlp (y * 60) ≤ (2 : ℚ) ^ (-47 : ℤ) := by
    unfold doubleUlp
    exact zpow_le_zpow_right₀ (by norm_num) (by omega)
  have herr := abs_roundDouble_sub_le (y * 60)
  rw [abs_le] at herr
  norm_num at hz1 hulp ⊢
  linarith [herr.2]

/-- The nearest double of a number below `2 ^ (k + 1)` in magnitude is at most `2 ^ (k + 1)`
in magnitude: rounding does not leave the binade upwards by more than its end. -/
theorem abs_roundDouble_le (x : ℚ) (k : ℤ) (hk : -1022 ≤ k) (h : |x| < (2 : ℚ) ^ (k + 1)) :
    |roundDouble x| ≤ (2 : ℚ) ^ (k + 1) := by
  obtain ⟨N, hN, hbound, -⟩ := roundDouble_eq_mul_zpow x
  have he := doubleExponent_le_of_lt x k hk h
  have hpos : (0 : ℚ) < (2 : ℚ) ^ (doubleExponent x - 52) := by positivity
  have hNq : |(N : ℚ)| ≤ (2 : ℚ) ^ (53 : ℤ) := by
    have h1 : ((|N| : ℤ) : ℚ) ≤ ((2 ^ 53 : ℤ) : ℚ) := by exact_mod_cast hbound
    rw [Int.cast_abs] at h1
    norm_num at h1 ⊢
    exact h1
  rw [hN, abs_mul, abs_of_pos hpos]
  calc |(N : ℚ)| * (2 : ℚ) ^ (doubleExponent x - 52)
      ≤ (2 : ℚ) ^ (53 : ℤ) * (2 : ℚ) ^ (doubleExponent x - 52) :=
        mul_le_mul_of_nonneg_right hNq hpos.le
    _ = (2 : ℚ) ^ (doubleExponent x + 1) := by
        rw [← zpow_add₀ (by norm_num : (2 : ℚ) ≠ 0)]
        congr 1
        ring
    _ ≤ (2 : ℚ) ^ (k + 1) := zpow_le_zpow_right₀ (by norm_num) (by omega)

/-! ### The billed flight time in double precision -/

/-- The facts on the billed half hours that the flight time in doubles gives, for a distance
that is not negative, a positive cruise speed and a flight time of at most `2 ^ 40` hours:
the flight time held is between 0 and `2 ^ 40`, its double is exact, and the billed half
hours are those of the exact quotient or one less, between 0 and `2 ^ 41`. -/
theorem billedHalfHoursDouble_bounds (distance : ℚ) (selected : AircraftType ℚ)
    (hd : 0 ≤ distance) (hs : 0 < selected.cruise_speed_kmh)
    (hbound : distance / selected.cruise_speed_kmh ≤ 2 ^ 40) :
    0 ≤ flightTimeHoursDouble distance selected ∧
    flightTimeHoursDouble distance selected ≤ 2 ^ 40 ∧
    billedHalfHoursDouble (flightTimeHoursDouble distance selected)
      = ⌈flightTimeHoursDouble distance selected * 2⌉ ∧
    0 ≤ billedHalfHoursDouble (flightTimeHoursDouble distance selected) ∧
    ⌈distance / selected.cruise_speed_kmh * 2⌉ - 1
      ≤ billedHalfHoursDouble (flightTimeHoursDouble distance selected) ∧
    billedHalfHoursDouble (flightTimeHoursDouble distance selected)
      ≤ ⌈distance / selected.cruise_speed_kmh * 2⌉ ∧
    ⌈distance / selected.cruise_speed_kmh * 2⌉ ≤ 2 ^ 41 := by
  have hx0 : 0 ≤ distance / selected.cruise_speed_kmh := div_nonneg hd hs.le
  have ht0 : 0 ≤ flightTimeHoursDouble distance selected := roundDouble_nonneg _ hx0
  have ht1 : flightTimeHoursDouble distance selected ≤ 2 ^ 40 := by
    have h := roundDouble_le_of_le _ ((2 ^ 40 : ℤ) : ℚ) hx0 (by push_cast; exact hbound)
      (roundDouble_intCast _ (by norm_num))
    push_cast at h
    exact h
  have hexact : billedHalfHoursDouble (flightTimeHoursDouble distance selected)
      = ⌈flightTimeHoursDouble distance selected * 2⌉ := by
    unfold billedHalfHoursDouble flightTimeHoursDouble
    rw [roundDouble_mul_two]
  have hK0 : 0 ≤ ⌈distance / selected.cruise_speed_kmh * 2⌉ :=
    Int.ceil_nonneg (by positivity)
  have hK1 : ⌈distance / selected.cruise_speed_kmh * 2⌉ ≤ 2 ^ 41 := by
    apply Int.ceil_le.mpr
    push_cast
    linarith
  have hup : billedHalfHoursDouble (flightTimeHoursDouble distance selected)
      ≤ ⌈distance / selected.cruise_speed_kmh * 2⌉ := by
    rw [hexact]
    apply Int.ceil_le.mpr
    have hle : distance / selected.cruise_speed_kmh
        ≤ ((⌈distance / selected.cruise_speed_kmh * 2⌉ : ℤ) : ℚ) / 2 := by
      have := Int.le_ceil (distance / selected.cruise_speed_kmh * 2)
      linarith
    have h := roundDouble_le_of_le _ _ hx0 hle
      (roundDouble_intCast_div_two _ (by rw [abs_of_nonneg hK0]; omega))
    unfold flightTimeHoursDouble
    linarith
  have hlow : ⌈distance / selected.cruise_speed_kmh * 2⌉ - 1
      ≤ billedHalfHoursDouble (flightTimeHoursDouble distance selected) := by
    rw [hexact]
    rcases eq_or_lt_of_le hK0 with hzero | hpos
    · have : 0 ≤ ⌈flightTimeHoursDouble distance selected * 2⌉ :=
        Int.ceil_nonneg (by positivity)
      omega
    · have hlt : (((⌈distance / selected.cruise_speed_kmh * 2⌉ - 1 : ℤ) : ℚ)) / 2
          ≤ distance / selected.cruise_speed_kmh := by
        have := Int.ceil_lt_add_one (distance / selected.cruise_speed_kmh * 2)
        push_cast
        linarith
      have h := le_roundDouble_of_le (distance / selected.cruise_speed_kmh) _
        (by
          have : (0 : ℚ) ≤ ((⌈distance / selected.cruise_speed_kmh * 2⌉ - 1 : ℤ) : ℚ) := by
            exact_mod_cast (by omega : (0 : ℤ) ≤ ⌈distance / selected.cruise_speed_kmh * 2⌉ - 1)
          positivity)
        hlt
        (roundDouble_intCast_div_two _ (by rw [abs_of_nonneg (by omega)]; omega))
      have h2 : (((⌈distance / selected.cruise_speed_kmh * 2⌉ - 1 : ℤ) : ℚ))
          ≤ flightTimeHoursDouble distance selected * 2 := by
        unfold flightTimeHoursDouble
        linarith
      have h3 := Int.ceil_mono h2
      rwa [Int.ceil_intCast] at h3
  exact ⟨ht0, ht1, hexact, by rw [hexact]; exact Int.ceil_nonneg (by positivity), hlow, hup, hK1⟩

/-- Claim C2 (amended): for a distance that is not negative and an aircraft with positive
cruise speed, the flight time at most `2 ^ 40` hours and the hourly rate at most `2 ^ 900` in
magnitude, let `t` be the double nearest to `distance / cruise_speed`, the flight time the
handler holds, and `k` the least integer such that `k / 2` is at least `t`.  Then `k` is the
least integer with `k / 2` at least the exact quotient, or one less, and one less only when
the quotient has been rounded down onto the half hour mark `k / 2`; the one way cost is the
double nearest to `hourly_rate * k / 2` (1.1 h is billed as 1.5 h and 0.2224 h as 0.5 h),
which is `hourly_rate * k / 2` itself for an hourly rate that is an integer with
`|hourly_rate| * k` at most `2 ^ 53`; the costs stay below `2 ^ 1024`, inside the range of
doubles; the flight cost reported is the one way cost for a request without a return date
and exactly twice that cost for a request with one. -/
theorem C2_flight_cost_half_hours_double (distance : ℚ) (selected : AircraftType ℚ)
    (quoteRequest : QuoteRequest) (hd : 0 ≤ distance) (hs : 0 < selected.cruise_speed_kmh)
    (hbound : distance / selected.cruise_speed_kmh ≤ 2 ^ 40)
    (hrate : |selected.hourly_rate| ≤ 2 ^ 900) :
    IsLeast {k : ℤ | flightTimeHoursDouble distance selected ≤ (k : ℚ) / 2}
      (billedHalfHoursDouble (flightTimeHoursDouble distance selected)) ∧
    ⌈distance / selected.cruise_speed_kmh * 2⌉ - 1
      ≤ billedHalfHoursDouble (flightTimeHoursDouble distance selected) ∧
    billedHalfHoursDouble (flightTimeHoursDouble distance selected)
      ≤ ⌈distance / selected.cruise_speed_kmh * 2⌉ ∧
    (billedHalfHoursDouble (flightTimeHoursDouble distance selected)
        = ⌈distance / selected.cruise_speed_kmh * 2⌉ - 1 →
      flightTimeHoursDouble distance selected
          = (billedHalfHoursDouble (flightTimeHoursDouble distance selected) : ℚ) / 2 ∧
        flightTimeHoursDouble distance selected < distance / selected.cruise_speed_kmh) ∧
    flightCostDouble distance selected = roundDouble (selected.hourly_rate *
      ((billedHalfHoursDouble (flightTimeHoursDouble distance selected) : ℚ) / 2)) ∧
    (|flightCostDouble distance selected| < 2 ^ 1024 ∧
      |totalFlightCostDouble distance selected quoteRequest| < 2 ^ 1024) ∧
    (∀ n : ℤ, selected.hourly_rate = (n : ℚ) →
      |n| * billedHalfHoursDouble (flightTimeHoursDouble distance selected) ≤ 2 ^ 53 →
      flightCostDouble distance selected = selected.hourly_rate *
        (billedHalfHoursDouble (flightTimeHoursDouble distance selected) : ℚ) / 2) ∧
    ((∃ date, quoteRequest.return_date = some date ∧ date ≠ "") →
      totalFlightCostDouble distance selected quoteRequest
        = 2 * flightCostDouble distance selected) ∧
    ((¬ ∃ date, quoteRequest.return_date = some date ∧ date ≠ "") →
      totalFlightCostDouble distance selected quoteRequest
        = flightCostDouble distance selected) ∧
    (distance / selected.cruise_speed_kmh = 11 / 10 →
      billedHalfHoursDouble (flightTimeHoursDouble distance selected) = 3) ∧
    (distance / selected.cruise_speed_kmh = 2224 / 10000 →
      billedHalfHoursDouble (flightTimeHoursDouble distance selected) = 1) ∧
    ∀ oneWay roundTrip : QuoteRequest, isRoundTrip oneWay = false → isRoundTrip roundTrip = true →
      totalFlightCostDouble distance selected roundTrip
        = 2 * totalFlightCostDouble distance selected oneWay := by
  obtain ⟨ht0, ht1, hexact, hk0, hlow, hup, hK1⟩ :=
    billedHalfHoursDouble_bounds distance selected hd hs hbound
  have hhalf : roundDouble
      ((billedHalfHoursDouble (flightTimeHoursDouble distance selected) : ℚ) / 2)
      = (billedHalfHoursDouble (flightTimeHoursDouble distance selected) : ℚ) / 2 :=
    roundDouble_intCast_div_two _ (by rw [abs_of_nonneg hk0]; omega)
  have hcost : flightCostDouble distance selected = roundDouble (selected.hourly_rate *
      ((billedHalfHoursDouble (flightTimeHoursDouble distance selected) : ℚ) / 2)) := by
    unfold flightCostDouble
    rw [hhalf]
  have htwice : roundDouble (flightCostDouble distance selected * 2)
      = 2 * flightCostDouble distance selected := by
    unfold flightCostDouble
    rw [roundDouble_mul_two]
    ring
  have hrange : |flightCostDouble distance selected| ≤ (2 : ℚ) ^ ((940 : ℤ) + 1) ∧
      |roundDouble (flightCostDouble distance selected * 2)| ≤ (2 : ℚ) ^ ((942 : ℤ) + 1) := by
    have hkq0 : (0 : ℚ)
        ≤ (billedHalfHoursDouble (flightTimeHoursDouble distance selected) : ℚ) / 2 := by
      have : (0 : ℚ) ≤ (billedHalfHoursDouble (flightTimeHoursDouble distance selected) : ℚ) := by
        exact_mod_cast hk0
      exact div_nonneg this (by norm_num)
    have hkq1 : (billedHalfHoursDouble (flightTimeHoursDouble distance selected) : ℚ) / 2
        ≤ 2 ^ 40 := by
      have h1 : billedHalfHoursDouble (flightTimeHoursDouble distance selected) ≤ 2 ^ 41 :=
        le_trans hup hK1
      have h2 : ((billedHalfHoursDouble (flightTimeHoursDouble distance selected) : ℤ) : ℚ)
          ≤ ((2 ^ 41 : ℤ) : ℚ) := by exact_mod_cast h1
      push_cast at h2
      linarith
    have h1 : |selected.hourly_rate *
        ((billedHalfHoursDouble (flightTimeHoursDouble distance selected) : ℚ) / 2)|
        < (2 : ℚ) ^ ((940 : ℤ) + 1) := by
      rw [abs_mul, abs_of_nonneg hkq0]
      calc |selected.hourly_rate|
            * ((billedHalfHoursDouble (flightTimeHoursDouble distance selected) : ℚ) / 2)
          ≤ 2 ^ 900 * 2 ^ 40 := mul_le_mul hrate hkq1 hkq0 (by positivity)
        _ < (2 : ℚ) ^ ((940 : ℤ) + 1) := by norm_num
    have h2 := abs_roundDouble_le _ 940 (by norm_num) h1
    rw [← hcost] at h2
    have h3 : |flightCostDouble distance selected * 2| < (2 : ℚ) ^ ((942 : ℤ) + 1) := by
      rw [abs_mul]
      have h4 : (2 : ℚ) ^ ((940 : ℤ) + 1) * |(2 : ℚ)| < (2 : ℚ) ^ ((942 : ℤ) + 1) := by
        norm_num
      exact lt_of_le_of_lt (mul_le_mul_of_nonneg_right h2 (abs_nonneg _)) h4
    exact ⟨h2, abs_roundDouble_le _ 942 (by norm_num) h3⟩
  have h941 : (2 : ℚ) ^ ((940 : ℤ) + 1) < 2 ^ 1024 := by norm_num
  have h943 : (2 : ℚ) ^ ((942 : ℤ) + 1) < 2 ^ 1024 := by norm_num
  refine ⟨⟨?_, ?_⟩, hlow, hup, ?_, hcost, ⟨lt_of_le_of_lt hrange.1 h941, ?_⟩, ?_, ?_, ?_, ?_, ?_,
    ?_⟩
  · show flightTimeHoursDouble distance selected
      ≤ ((billedHalfHoursDouble (flightTimeHoursDouble distance selected) : ℤ) : ℚ) / 2
    rw [hexact]
    have := Int.le_ceil (flightTimeHoursDouble distance selected * 2)
    linarith
  · intro k hk
    have hk' : flightTimeHoursDouble distance selected ≤ (k : ℚ) / 2 := hk
    rw [hexact]
    exact Int.ceil_le.mpr (by linarith)
  · intro hone
    have hle : flightTimeHoursDouble distance selected * 2
        ≤ (billedHalfHoursDouble (flightTimeHoursDouble distance selected) : ℚ) := by
      rw [hexact]
      exact Int.le_ceil _
    have hK0 : 0 < ⌈distance / selected.cruise_speed_kmh * 2⌉ := by omega
    have hlt : ((billedHalfHoursDouble (flightTimeHoursDouble distance selected) : ℤ) : ℚ) / 2
        < distance / selected.cruise_speed_kmh := by
      have h1 : ((billedHalfHoursDouble (flightTimeHoursDouble distance selected) : ℤ) : ℚ)
          < distance / selected.cruise_speed_kmh * 2 := by
        apply Int.lt_ceil.mp
        omega
      linarith
    have hge := le_roundDouble_of_le (distance / selected.cruise_speed_kmh)
      ((billedHalfHoursDouble (flightTimeHoursDouble distance selected) : ℚ) / 2)
      (by
        have : (0 : ℚ) ≤ (billedHalfHoursDouble (flightTimeHoursDouble distance selected) : ℚ) := by
          exact_mod_cast hk0
        exact div_nonneg this (by norm_num))
      hlt.le hhalf
    have heq : flightTimeHoursDouble distance selected
        = (billedHalfHoursDouble (flightTimeHoursDouble distance selected) : ℚ) / 2 := by
      apply le_antisymm
      · linarith
      · exact hge
    exact ⟨heq, by rw [heq]; exact hlt⟩
  · unfold totalFlightCostDouble
    split
    · exact lt_of_le_of_lt hrange.2 h943
    · exact lt_of_le_of_lt hrange.1 h941
  · intro n hn hsmall
    have hprod : selected.hourly_rate *
        ((billedHalfHoursDouble (flightTimeHoursDouble distance selected) : ℚ) / 2)
        = ((n * billedHalfHoursDouble (flightTimeHoursDouble distance selected) : ℤ) : ℚ) / 2 := by
      rw [hn]
      push_cast
      ring
    have habs : |n * billedHalfHoursDouble (flightTimeHoursDouble distance selected)|
        ≤ 2 ^ 53 := by
      rw [abs_mul, abs_of_nonneg hk0]
      exact hsmall
    rw [hcost, hprod, roundDouble_intCast_div_two _ habs, hn]
    push_cast
    ring
  · intro hret
    have hrt := (isRoundTrip_iff quoteRequest).mpr hret
    simp only [totalFlightCostDouble, hrt, if_true, htwice]
  · intro hret
    have hrt : isRoundTrip quoteRequest = false := by
      cases hb : isRoundTrip quoteRequest with
      | false => rfl
      | true => exact absurd ((isRoundTrip_iff quoteRequest).mp hb) hret
    simp only [totalFlightCostDouble, hrt, Bool.false_eq_true, if_false]
  · intro hq
    unfold flightTimeHoursDouble
    rw [hq]
    decide!
  · intro hq
    unfold flightTimeHoursDouble
    rw [hq]
    decide!
  · intro oneWay roundTrip hone hround
    simp only [totalFlightCostDouble, hone, hround, if_true, Bool.false_eq_true, if_false,
      htwice]

/-- Claim C2 as stated fails in the arithmetic of the handler: at 2000 km and the cruise speed
1333.3333333333333 km/h the exact quotient is above 1.5, so the least integer `k` with `k / 2`
at least the quotient is 4 and the claim gives a one way cost of 9000 * 4 / 2 = 18000; the
handler holds the flight time 1.5, the double nearest to the quotient, and reports 13500. -/
theorem C2_counterexample :
    (0 : ℚ) ≤ 2000 ∧ 0 < (fastJet).cruise_speed_kmh ∧
    IsLeast {k : ℤ | (2000 : ℚ) / (fastJet).cruise_speed_kmh ≤ (k : ℚ) / 2} 4 ∧
    isRoundTrip sampleRequest = false ∧
    flightTimeHoursDouble 2000 fastJet = 3 / 2 ∧
    billedHalfHoursDouble (flightTimeHoursDouble 2000 fastJet) = 3 ∧
    totalFlightCostDouble 2000 fastJet sampleRequest = 13500 ∧
    (13500 : ℚ) ≠ 1 * (fastJet).hourly_rate * 4 / 2 := by
  have ht : flightTimeHoursDouble 2000 fastJet = 3 / 2 := by decide!
  have hk : billedHalfHoursDouble (3 / 2 : ℚ) = 3 := by decide!
  have hhalf : roundDouble (((3 : ℤ) : ℚ) / 2) = ((3 : ℤ) : ℚ) / 2 :=
    roundDouble_intCast_div_two 3 (by norm_num)
  have hcost : roundDouble ((13500 : ℤ) : ℚ) = ((13500 : ℤ) : ℚ) :=
    roundDouble_intCast 13500 (by norm_num)
  refine ⟨by norm_num, by norm_num [fastJet], ⟨?_, ?_⟩, rfl, ht, by rw [ht, hk], ?_,
    by norm_num [fastJet]⟩
  · show (2000 : ℚ) / (fastJet).cruise_speed_kmh ≤ ((4 : ℤ) : ℚ) / 2
    norm_num [fastJet]
  · intro k hk
    have hk' : (2000 : ℚ) / (fastJet).cruise_speed_kmh ≤ (k : ℚ) / 2 := hk
    have h3 : (3 : ℚ) / 2 < (2000 : ℚ) / (fastJet).cruise_speed_kmh := by
      norm_num [fastJet]
    have h4 : ((3 : ℤ) : ℚ) < (k : ℚ) := by
      push_cast
      linarith
    have h5 : (3 : ℤ) < k := by exact_mod_cast h4
    show (4 : ℤ) ≤ k
    omega
  · have hrt : isRoundTrip sampleRequest = false := rfl
    unfold totalFlightCostDouble flightCostDouble
    rw [hrt, ht, hk, hhalf]
    have hrate : (fastJet).hourly_rate * (((3 : ℤ) : ℚ) / 2) = ((13500 : ℤ) : ℚ) := by
      norm_num [fastJet]
    rw [hrate, hcost]
    norm_num

/-- Claim C2 (amended) on the light jet at 550 km: the quotient 1.1 is held as a double just
above 1.1, three half hours are billed, and the round trip costs twice the one way trip. -/
theorem C2_flight_cost_half_hours_double_witness :
    (0 : ℚ) ≤ 550 ∧ 0 < (lightJet ℚ).cruise_speed_kmh ∧
    (550 : ℚ) / (lightJet ℚ).cruise_speed_kmh ≤ 2 ^ 40 ∧
    |(lightJet ℚ).hourly_rate| ≤ 2 ^ 900 ∧
    billedHalfHoursDouble (flightTimeHoursDouble 550 (lightJet ℚ)) = 3 ∧
    flightCostDouble 550 (lightJet ℚ) = (lightJet ℚ).hourly_rate *
      (billedHalfHoursDouble (flightTimeHoursDouble 550 (lightJet ℚ)) : ℚ) / 2 ∧
    totalFlightCostDouble 550 (lightJet ℚ)
        { sampleRequest with return_date := some "2025-01-08" }
      = 2 * totalFlightCostDouble 550 (lightJet ℚ) sampleRequest :=
  ⟨by decide, by decide, by decide!, by decide!,
    (C2_flight_cost_half_hours_double 550 (lightJet ℚ) sampleRequest (by decide) (by decide)
      (by decide!) (by decide!)).2.2.2.2.2.2.2.2.2.1 (by decide!),
    (C2_flight_cost_half_hours_double 550 (lightJet ℚ) sampleRequest (by decide) (by decide)
      (by decide!) (by decide!)).2.2.2.2.2.2.1 3000 (by decide!) (by decide!),
    (C2_flight_cost_half_hours_double 550 (lightJet ℚ) sampleRequest (by decide) (by decide)
      (by decide!) (by decide!)).2.2.2.2.2.2.2.2.2.2.2 sampleRequest
      { sampleRequest with return_date := some "2025-01-08" } (by decide) (by decide)⟩

/-! ### The displayed flight time in double precision -/

/-- The facts on the displayed time that a flight time `t` held as a double gives: the
subtraction of the whole hours is exact, the minutes lie between 0 and 59, their count
`60 * hours + minutes` is within `60 * 2 ^ (-13) + 2 ^ (-48)` of `60 * t` rounded down, and
the displayed time is at most `ceil (2 * t) / 2` hours. -/
theorem displayedTimeDouble_bounds (x : ℚ) (hx : 0 ≤ x) :
    minutesDouble (roundDouble x)
      = ⌊roundDouble ((roundDouble x - ((⌊roundDouble x⌋ : ℤ) : ℚ)) * 60)⌋ ∧
    0 ≤ hoursDouble (roundDouble x) ∧
    0 ≤ minutesDouble (roundDouble x) ∧
    minutesDouble (roundDouble x) ≤ 59 ∧
    ((60 * hoursDouble (roundDouble x) + minutesDouble (roundDouble x) : ℤ) : ℚ)
      ≤ 60 * roundDouble x + (2 : ℚ) ^ (-48 : ℤ) ∧
    60 * roundDouble x - (2 : ℚ) ^ (-48 : ℤ)
      < ((60 * hoursDouble (roundDouble x) + minutesDouble (roundDouble x) : ℤ) : ℚ) + 1 ∧
    (hoursDouble (roundDouble x) : ℚ) + (minutesDouble (roundDouble x) : ℚ) / 60
      ≤ (⌈roundDouble x * 2⌉ : ℚ) / 2 := by
  obtain ⟨hsub, hy1⟩ := roundDouble_sub_floor x hx
  have ht0 : 0 ≤ roundDouble x := roundDouble_nonneg x hx
  have hh0 : 0 ≤ ⌊roundDouble x⌋ := Int.floor_nonneg.mpr ht0
  have hy0 : 0 ≤ roundDouble x - ((⌊roundDouble x⌋ : ℤ) : ℚ) := by
    have := Int.floor_le (roundDouble x)
    linarith
  have hmin : minutesDouble (roundDouble x)
      = ⌊roundDouble ((roundDouble x - ((⌊roundDouble x⌋ : ℤ) : ℚ)) * 60)⌋ := by
    unfold minutesDouble hoursDouble
    rw [hsub]
  have hp0 : 0 ≤ roundDouble ((roundDouble x - ((⌊roundDouble x⌋ : ℤ) : ℚ)) * 60) :=
    roundDouble_nonneg _ (by positivity)
  have hp60 : roundDouble ((roundDouble x - ((⌊roundDouble x⌋ : ℤ) : ℚ)) * 60) < 60 :=
    roundDouble_mul_sixty_lt _ hy0 hy1
  have hm0 : 0 ≤ minutesDouble (roundDouble x) := by
    rw [hmin]
    exact Int.floor_nonneg.mpr hp0
  have hm59 : minutesDouble (roundDouble x) ≤ 59 := by
    rw [hmin]
    have : ⌊roundDouble ((roundDouble x - ((⌊roundDouble x⌋ : ℤ) : ℚ)) * 60)⌋ < 60 :=
      Int.floor_lt.mpr (by exact_mod_cast hp60)
    omega
  -- the product by 60 is within half a spacing of the exact product
  have hexp : doubleExponent ((roundDouble x - ((⌊roundDouble x⌋ : ℤ) : ℚ)) * 60) ≤ 5 := by
    apply doubleExponent_le_of_lt _ 5 (by norm_num)
    rw [abs_of_nonneg (by positivity)]
    norm_num at hy1 ⊢
    linarith
  have hulp : doubleUlp ((roundDouble x - ((⌊roundDouble x⌋ : ℤ) : ℚ)) * 60)
      ≤ (2 : ℚ) ^ (-47 : ℤ) := by
    unfold doubleUlp
    exact zpow_le_zpow_right₀ (by norm_num) (by omega)
  have herr := abs_roundDouble_sub_le ((roundDouble x - ((⌊roundDouble x⌋ : ℤ) : ℚ)) * 60)
  rw [abs_le] at herr
  have h47 : (2 : ℚ) ^ (-47 : ℤ) / 2 = (2 : ℚ) ^ (-48 : ℤ) := by norm_num
  have hhalfulp : doubleUlp ((roundDouble x - ((⌊roundDouble x⌋ : ℤ) : ℚ)) * 60) / 2
      ≤ (2 : ℚ) ^ (-48 : ℤ) := by
    rw [← h47]
    exact div_le_div_of_nonneg_right hulp (by norm_num)
  have herr1 := herr.1
  have herr2 := herr.2
  have hfl := Int.floor_le (roundDouble ((roundDouble x - ((⌊roundDouble x⌋ : ℤ) : ℚ)) * 60))
  have hfu := Int.lt_floor_add_one
    (roundDouble ((roundDouble x - ((⌊roundDouble x⌋ : ℤ) : ℚ)) * 60))
  refine ⟨hmin, hh0, hm0, hm59, ?_, ?_, ?_⟩
  · rw [hmin]
    unfold hoursDouble
    push_cast
    generalize (2 : ℚ) ^ (-48 : ℤ) = u at hhalfulp ⊢
    linarith
  · rw [hmin]
    unfold hoursDouble
    push_cast
    generalize (2 : ℚ) ^ (-48 : ℤ) = u at hhalfulp ⊢
    linarith
  · -- the displayed time against the billed time
    have hceil := Int.le_ceil (roundDouble x * 2)
    have hfloor := Int.floor_le (roundDouble x)
    rcases eq_or_lt_of_le hy0 with hzero | hpos
    · -- a whole number of hours
      have hp : roundDouble ((roundDouble x - ((⌊roundDouble x⌋ : ℤ) : ℚ)) * 60) = 0 := by
        rw [← hzero]
        have := roundDouble_intCast 0 (by norm_num)
        simpa using this
      have hmz : minutesDouble (roundDouble x) = 0 := by
        rw [hmin, hp]
        exact Int.floor_zero
      rw [hmz]
      unfold hoursDouble
      push_cast
      linarith
    · rcases le_or_lt (roundDouble x - ((⌊roundDouble x⌋ : ℤ) : ℚ)) (1 / 2) with hhalf | hhalf
      · -- at most half an hour over the whole hours
        have h30 : roundDouble ((30 : ℤ) : ℚ) = ((30 : ℤ) : ℚ) :=
          roundDouble_intCast 30 (by norm_num)
        have hp30 : roundDouble ((roundDouble x - ((⌊roundDouble x⌋ : ℤ) : ℚ)) * 60)
            ≤ ((30 : ℤ) : ℚ) :=
          roundDouble_le_of_le _ _ (by positivity) (by push_cast; linarith) h30
        have hk : 2 * ⌊roundDouble x⌋ + 1 ≤ ⌈roundDouble x * 2⌉ := by
          have : ((2 * ⌊roundDouble x⌋ : ℤ) : ℚ) < roundDouble x * 2 := by
            push_cast
            linarith
          have := Int.lt_ceil.mpr this
          omega
        have hkq : ((2 * ⌊roundDouble x⌋ + 1 : ℤ) : ℚ) ≤ (⌈roundDouble x * 2⌉ : ℚ) := by
          exact_mod_cast hk
        have hmq : (minutesDouble (roundDouble x) : ℚ) ≤ 30 := by
          rw [hmin]
          push_cast at hp30
          linarith
        unfold hoursDouble at *
        push_cast at hkq
        linarith
      · -- more than half an hour over the whole hours
        have hk : 2 * ⌊roundDouble x⌋ + 2 ≤ ⌈roundDouble x * 2⌉ := by
          have : ((2 * ⌊roundDouble x⌋ + 1 : ℤ) : ℚ) < roundDouble x * 2 := by
            push_cast
            linarith
          have := Int.lt_ceil.mpr this
          omega
        have hkq : ((2 * ⌊roundDouble x⌋ + 2 : ℤ) : ℚ) ≤ (⌈roundDouble x * 2⌉ : ℚ) := by
          exact_mod_cast hk
        have hmq : (minutesDouble (roundDouble x) : ℚ) ≤ 59 := by exact_mod_cast hm59
        unfold hoursDouble at *
        push_cast at hkq
        linarith

/-- Claim C12 (amended): for a distance that is not negative and a positive cruise speed, the
flight time at most `2 ^ 40` hours, with `t` the double nearest to `distance / cruise_speed`,
the flight time the handler holds: the displayed hours are `floor t` and the displayed minutes
are the floor of the double nearest to `(t - hours) * 60`, the subtraction being exact; the
hours are not negative, the minutes lie between 0 and 59, and `60 * hours + minutes` differs
from `floor (60 * distance / cruise_speed)`, the exact flight time truncated to whole minutes,
by at most one; the displayed time is at most the billed time of `ceil (2 * t) / 2` hours. -/
theorem C12_displayed_flight_time_double (distance : ℚ) (selected : AircraftType ℚ)
    (hd : 0 ≤ distance) (hs : 0 < selected.cruise_speed_kmh)
    (hbound : distance / selected.cruise_speed_kmh ≤ 2 ^ 40) :
    hoursDouble (flightTimeHoursDouble distance selected)
      = ⌊flightTimeHoursDouble distance selected⌋ ∧
    minutesDouble (flightTimeHoursDouble distance selected)
      = ⌊roundDouble ((flightTimeHoursDouble distance selected
          - ((⌊flightTimeHoursDouble distance selected⌋ : ℤ) : ℚ)) * 60)⌋ ∧
    0 ≤ hoursDouble (flightTimeHoursDouble distance selected) ∧
    0 ≤ minutesDouble (flightTimeHoursDouble distance selected) ∧
    minutesDouble (flightTimeHoursDouble distance selected) ≤ 59 ∧
    ⌊60 * (distance / selected.cruise_speed_kmh)⌋ - 1
      ≤ 60 * hoursDouble (flightTimeHoursDouble distance selected)
        + minutesDouble (flightTimeHoursDouble distance selected) ∧
    60 * hoursDouble (flightTimeHoursDouble distance selected)
        + minutesDouble (flightTimeHoursDouble distance selected)
      ≤ ⌊60 * (distance / selected.cruise_speed_kmh)⌋ + 1 ∧
    (hoursDouble (flightTimeHoursDouble distance selected) : ℚ)
        + (minutesDouble (flightTimeHoursDouble distance selected) : ℚ) / 60
      ≤ (billedHalfHoursDouble (flightTimeHoursDouble distance selected) : ℚ) / 2 := by
  have hx0 : 0 ≤ distance / selected.cruise_speed_kmh := div_nonneg hd hs.le
  obtain ⟨-, -, hexact, -, -, -, -⟩ :=
    billedHalfHoursDouble_bounds distance selected hd hs hbound
  obtain ⟨hmin, hh0, hm0, hm59, hup, hlow, hbilled⟩ :=
    displayedTimeDouble_bounds (distance / selected.cruise_speed_kmh) hx0
  -- the flight time held is within `2 ^ (-13)` of the exact quotient
  have hexp : doubleExponent (distance / selected.cruise_speed_kmh) ≤ 40 := by
    apply doubleExponent_le_of_lt _ 40 (by norm_num)
    rw [abs_of_nonneg hx0]
    have h41 : ((2 : ℚ) ^ 40) < (2 : ℚ) ^ ((40 : ℤ) + 1) := by norm_num
    exact lt_of_le_of_lt hbound h41
  have hulp : doubleUlp (distance / selected.cruise_speed_kmh) / 2 ≤ (2 : ℚ) ^ (-13 : ℤ) := by
    have h1 : doubleUlp (distance / selected.cruise_speed_kmh) ≤ (2 : ℚ) ^ (-12 : ℤ) := by
      unfold doubleUlp
      exact zpow_le_zpow_right₀ (by norm_num) (by omega)
    have h2 : (2 : ℚ) ^ (-12 : ℤ) / 2 = (2 : ℚ) ^ (-13 : ℤ) := by norm_num
    rw [← h2]
    exact div_le_div_of_nonneg_right h1 (by norm_num)
  have herr := abs_roundDouble_sub_le (distance / selected.cruise_speed_kmh)
  rw [abs_le] at herr
  have herr1 := herr.1
  have herr2 := herr.2
  have hsmall : 60 * (2 : ℚ) ^ (-13 : ℤ) + (2 : ℚ) ^ (-48 : ℤ) < 1 := by norm_num
  have hfl := Int.floor_le (60 * (distance / selected.cruise_speed_kmh))
  have hfu := Int.lt_floor_add_one (60 * (distance / selected.cruise_speed_kmh))
  unfold flightTimeHoursDouble
  refine ⟨rfl, hmin, hh0, hm0, hm59, ?_, ?_, ?_⟩
  · have h : ((⌊60 * (distance / selected.cruise_speed_kmh)⌋ : ℤ) : ℚ)
        < ((60 * hoursDouble (roundDouble (distance / selected.cruise_speed_kmh))
            + minutesDouble (roundDouble (distance / selected.cruise_speed_kmh)) : ℤ) : ℚ)
          + 2 := by
      generalize (2 : ℚ) ^ (-13 : ℤ) = u at hulp hsmall
      generalize (2 : ℚ) ^ (-48 : ℤ) = v at hlow hsmall
      linarith
    have h2 : ⌊60 * (distance / selected.cruise_speed_kmh)⌋
        < 60 * hoursDouble (roundDouble (distance / selected.cruise_speed_kmh))
            + minutesDouble (roundDouble (distance / selected.cruise_speed_kmh)) + 2 := by
      exact_mod_cast h
    omega
  · have h : ((60 * hoursDouble (roundDouble (distance / selected.cruise_speed_kmh))
            + minutesDouble (roundDouble (distance / selected.cruise_speed_kmh)) : ℤ) : ℚ)
        < ((⌊60 * (distance / selected.cruise_speed_kmh)⌋ : ℤ) : ℚ) + 2 := by
      generalize (2 : ℚ) ^ (-13 : ℤ) = u at hulp hsmall
      generalize (2 : ℚ) ^ (-48 : ℤ) = v at hup hsmall
      linarith
    have h2 : 60 * hoursDouble (roundDouble (distance / selected.cruise_speed_kmh))
            + minutesDouble (roundDouble (distance / selected.cruise_speed_kmh))
        < ⌊60 * (distance / selected.cruise_speed_kmh)⌋ + 2 := by
      exact_mod_cast h
    omega
  · unfold flightTimeHoursDouble at hexact
    rw [hexact]
    exact hbilled

/-- Claim C12 as stated fails in the arithmetic of the handler: at 575 km and 500 km/h the
exact flight time is 1.15 h, which the claim displays as 1 hour 9 minutes, 69 minutes in all;
the handler holds the double nearest to 1.15, whose part over the hour times 60 is a double
just below 9, and displays 1 hour 8 minutes. -/
theorem C12_counterexample :
    (0 : ℚ) ≤ 575 ∧ 0 < (lightJet ℚ).cruise_speed_kmh ∧
    ⌊(575 : ℚ) / (lightJet ℚ).cruise_speed_kmh⌋ = 1 ∧
    ⌊((575 : ℚ) / (lightJet ℚ).cruise_speed_kmh
        - ((⌊(575 : ℚ) / (lightJet ℚ).cruise_speed_kmh⌋ : ℤ) : ℚ)) * 60⌋ = 9 ∧
    ⌊60 * ((575 : ℚ) / (lightJet ℚ).cruise_speed_kmh)⌋ = 69 ∧
    hoursDouble (flightTimeHoursDouble 575 (lightJet ℚ)) = 1 ∧
    minutesDouble (flightTimeHoursDouble 575 (lightJet ℚ)) = 8 ∧
    60 * hoursDouble (flightTimeHoursDouble 575 (lightJet ℚ))
        + minutesDouble (flightTimeHoursDouble 575 (lightJet ℚ))
      ≠ ⌊60 * ((575 : ℚ) / (lightJet ℚ).cruise_speed_kmh)⌋ := by
  have hh : hoursDouble (flightTimeHoursDouble 575 (lightJet ℚ)) = 1 := by decide!
  have hm : minutesDouble (flightTimeHoursDouble 575 (lightJet ℚ)) = 8 := by decide!
  have hf : ⌊60 * ((575 : ℚ) / (lightJet ℚ).cruise_speed_kmh)⌋ = 69 := by decide!
  refine ⟨by decide, by decide, by decide!, by decide!, hf, hh, hm, ?_⟩
  rw [hh, hm, hf]
  decide

/-- Claim C12 (amended) on the light jet at 550 km: the double nearest to 1.1 h is displayed
as 1 hour 6 minutes, the 66 minutes of the exact flight time, below the billed 1.5 h. -/
theorem C12_displayed_flight_time_double_witness :
    (0 : ℚ) ≤ 550 ∧ 0 < (lightJet ℚ).cruise_speed_kmh ∧
    (550 : ℚ) / (lightJet ℚ).cruise_speed_kmh ≤ 2 ^ 40 ∧
    hoursDouble (flightTimeHoursDouble 550 (lightJet ℚ)) = 1 ∧
    minutesDouble (flightTimeHoursDouble 550 (lightJet ℚ)) = 6 ∧
    minutesDouble (flightTimeHoursDouble 550 (lightJet ℚ)) ≤ 59 ∧
    60 * hoursDouble (flightTimeHoursDouble 550 (lightJet ℚ))
        + minutesDouble (flightTimeHoursDouble 550 (lightJet ℚ))
      ≤ ⌊60 * ((550 : ℚ) / (lightJet ℚ).cruise_speed_kmh)⌋ + 1 ∧
    (hoursDouble (flightTimeHoursDouble 550 (lightJet ℚ)) : ℚ)
        + (minutesDouble (flightTimeHoursDouble 550 (lightJet ℚ)) : ℚ) / 60
      ≤ (billedHalfHoursDouble (flightTimeHoursDouble 550 (lightJet ℚ)) : ℚ) / 2 :=
  ⟨by decide, by decide, by decide!, by decide!, by decide!,
    (C12_displayed_flight_time_double 550 (lightJet ℚ) (by decide) (by decide)
      (by decide!)).2.2.2.2.1,
    (C12_displayed_flight_time_double 550 (lightJet ℚ) (by decide) (by decide)
      (by decide!)).2.2.2.2.2.2.1,
    (C12_displayed_flight_time_double 550 (lightJet ℚ) (by decide) (by decide)
      (by decide!)).2.2.2.2.2.2.2⟩

end Rounding

end CharterQuote
